import Mathlib

/-!
Shallow embedding of the options pricing and strategy engine of the
robot-advisor repository (engine/black_scholes.py, engine/strategy.py),
together with proofs about its stated properties.

Modelling conventions:
* Python machine floats are modelled as real numbers.
* `scipy.stats.norm.pdf` / `norm.cdf` are modelled by the exact standard
  normal density and its Lebesgue integral over `Iic z`.
* Python `round(x, n)` (round-half-even on binary floats) is modelled as
  round-half-up on reals; the two differ only at exact decimal ties,
  which do not arise at the concrete inputs evaluated here.
* `option_type` strings ("call"/"put" after `.lower()`) are modelled as
  an enumeration, since the engine only ever constructs those two.
* The field `p_partial_loss` of the source is rendered `p_part_loss`.
-/

open MeasureTheory Set

noncomputable section

/-- Python `round(x, n)` modelled as round-half-up to `n` decimal digits. -/
def roundTo (n : ℕ) (x : ℝ) : ℝ :=
  (Int.floor (x * 10 ^ n + 1 / 2) : ℝ) / 10 ^ n

theorem roundTo_mono (n : ℕ) {x y : ℝ} (h : x ≤ y) : roundTo n x ≤ roundTo n y := by
  unfold roundTo
  have hp : (0:ℝ) < 10 ^ n := by positivity
  have h2 : (Int.floor (x * 10 ^ n + 1/2) : ℝ) ≤ (Int.floor (y * 10 ^ n + 1/2) : ℝ) := by
    exact_mod_cast Int.floor_le_floor (by nlinarith)
  exact div_le_div_of_nonneg_right h2 hp.le

theorem roundTo_le (n : ℕ) (x : ℝ) : roundTo n x ≤ x + 1 / (2 * 10 ^ n) := by
  unfold roundTo
  have hp : (0:ℝ) < 10 ^ n := by positivity
  have h1 : (Int.floor (x * 10 ^ n + 1/2) : ℝ) ≤ x * 10 ^ n + 1/2 := Int.floor_le _
  have h2 : (1 / (2 * 10 ^ n) : ℝ) * 10 ^ n = 1/2 := by field_simp; ring
  rw [div_le_iff₀ hp]
  nlinarith

theorem roundTo_ge (n : ℕ) (x : ℝ) : x - 1 / (2 * 10 ^ n) ≤ roundTo n x := by
  unfold roundTo
  have hp : (0:ℝ) < 10 ^ n := by positivity
  have h1 : x * 10 ^ n + 1/2 - 1 ≤ (Int.floor (x * 10 ^ n + 1/2) : ℝ) :=
    le_of_lt (Int.sub_one_lt_floor _)
  have h2 : (1 / (2 * 10 ^ n) : ℝ) * 10 ^ n = 1/2 := by field_simp; ring
  rw [le_div_iff₀ hp]
  nlinarith

/-- Values that are an exact integer number of `10^(-n)` units are fixed by
`roundTo n`. -/
theorem roundTo_int_div (n : ℕ) (k : ℤ) : roundTo n ((k : ℝ) / 10 ^ n) = (k : ℝ) / 10 ^ n := by
  unfold roundTo
  have hp : (0:ℝ) < 10 ^ n := by positivity
  have h : (k : ℝ) / 10 ^ n * 10 ^ n + 1/2 = 1/2 + (k:ℝ) := by field_simp; ring
  rw [h, Int.floor_add_int]
  norm_num

/-! ## The standard normal distribution -/

/-- Standard normal density (`scipy.stats.norm.pdf`). -/
def normPdf (x : ℝ) : ℝ := Real.exp (-x ^ 2 / 2) / Real.sqrt (2 * Real.pi)

/-- Standard normal cumulative distribution (`scipy.stats.norm.cdf`). -/
def normCdf (z : ℝ) : ℝ := ∫ t in Iic z, normPdf t

theorem sqrt_two_pi_pos : 0 < Real.sqrt (2 * Real.pi) :=
  Real.sqrt_pos.mpr (by positivity)

theorem normPdf_pos (x : ℝ) : 0 < normPdf x :=
  div_pos (Real.exp_pos _) sqrt_two_pi_pos

theorem normPdf_nonneg (x : ℝ) : 0 ≤ normPdf x := (normPdf_pos x).le

/-- Monotonicity of the density in `|x|`. -/
theorem normPdf_le_normPdf {x y : ℝ} (h : x ^ 2 ≤ y ^ 2) : normPdf y ≤ normPdf x := by
  unfold normPdf
  have hs := sqrt_two_pi_pos
  have he : Real.exp (-y ^ 2 / 2) ≤ Real.exp (-x ^ 2 / 2) :=
    Real.exp_le_exp.mpr (by linarith)
  exact div_le_div_of_nonneg_right he hs.le

theorem sqrt_two_pi_lt : Real.sqrt (2 * Real.pi) < 2.50663 := by
  have h : 2 * Real.pi < 2.50663 ^ 2 := by
    nlinarith [Real.pi_lt_3141593]
  calc Real.sqrt (2 * Real.pi) < Real.sqrt (2.50663 ^ 2) :=
        Real.sqrt_lt_sqrt (by positivity) h
    _ = 2.50663 := Real.sqrt_sq (by norm_num)

theorem sqrt_two_pi_gt : 2.5 < Real.sqrt (2 * Real.pi) := by
  have h : (2.5 : ℝ) ^ 2 < 2 * Real.pi := by nlinarith [Real.pi_gt_3141592]
  have := Real.lt_sqrt (x := 2.5) (y := 2 * Real.pi) (by norm_num)
  exact this.mpr h

/-- The density is everywhere below `0.4`. -/
theorem normPdf_le_const (x : ℝ) : normPdf x ≤ 0.4 := by
  unfold normPdf
  have h1 : Real.exp (-x ^ 2 / 2) ≤ 1 := by
    rw [Real.exp_le_one_iff]
    nlinarith [sq_nonneg x]
  have h2 := sqrt_two_pi_gt
  have h3 := sqrt_two_pi_pos
  rw [div_le_iff h3]
  nlinarith

theorem integrable_normPdf : Integrable normPdf := by
  have h : Integrable (fun x : ℝ => Real.exp (-(1/2) * x ^ 2)) :=
    integrable_exp_neg_mul_sq (by norm_num)
  have h2 : Integrable (fun x : ℝ => Real.exp (-(1/2) * x ^ 2) / Real.sqrt (2 * Real.pi)) :=
    h.div_const _
  apply h2.congr
  filter_upwards with x
  unfold normPdf
  ring_nf

theorem integral_normPdf : ∫ x, normPdf x = 1 := by
  have h : ∫ x : ℝ, Real.exp (-(1/2) * x ^ 2) = Real.sqrt (Real.pi / (1/2)) :=
    integral_gaussian (1/2)
  have heq : ∀ x : ℝ, normPdf x = Real.exp (-(1/2) * x ^ 2) / Real.sqrt (2 * Real.pi) := by
    intro x; unfold normPdf; ring_nf
  have h2 : ∫ x, normPdf x = (∫ x : ℝ, Real.exp (-(1/2) * x ^ 2)) / Real.sqrt (2 * Real.pi) := by
    simp_rw [heq]
    exact integral_div _ _
  rw [h2, h]
  rw [show Real.pi / (1/2) = 2 * Real.pi by ring]
  exact div_self (ne_of_gt sqrt_two_pi_pos)

theorem normCdf_nonneg (z : ℝ) : 0 ≤ normCdf z :=
  setIntegral_nonneg measurableSet_Iic fun x _ => normPdf_nonneg x

theorem normCdf_le_one (z : ℝ) : normCdf z ≤ 1 := by
  unfold normCdf
  rw [← integral_normPdf]
  exact setIntegral_le_integral integrable_normPdf
    (Filter.Eventually.of_forall normPdf_nonneg)

/-- Decomposition of the cdf over an interval. -/
theorem normCdf_add_Ioc {a b : ℝ} (h : a ≤ b) :
    normCdf b = normCdf a + ∫ t in Ioc a b, normPdf t := by
  unfold normCdf
  rw [← Iic_union_Ioc_eq_Iic h]
  rw [integral_union (Iic_disjoint_Ioc le_rfl) measurableSet_Ioc
    integrable_normPdf.integrableOn integrable_normPdf.integrableOn]

theorem integral_Ioc_normPdf_le {a b : ℝ} (h : a ≤ b) (c : ℝ)
    (hc : ∀ t ∈ Ioc a b, normPdf t ≤ c) :
    ∫ t in Ioc a b, normPdf t ≤ (b - a) * c := by
  have h1 : ∫ t in Ioc a b, normPdf t ≤ ∫ _t in Ioc a b, c := by
    apply setIntegral_mono_on integrable_normPdf.integrableOn
      (integrableOn_const.mpr (Or.inr (by rw [Real.volume_Ioc]; exact ENNReal.ofReal_lt_top)))
      measurableSet_Ioc hc
  have h2 : ∫ _t in Ioc a b, c = (b - a) * c := by
    rw [setIntegral_const, Real.volume_Ioc, smul_eq_mul, ENNReal.toReal_ofReal (by linarith)]
  linarith [h1, h2.le, h2.ge]

theorem integral_Ioc_normPdf_ge {a b : ℝ} (h : a ≤ b) (c : ℝ)
    (hc : ∀ t ∈ Ioc a b, c ≤ normPdf t) :
    (b - a) * c ≤ ∫ t in Ioc a b, normPdf t := by
  have h1 : ∫ _t in Ioc a b, c ≤ ∫ t in Ioc a b, normPdf t := by
    apply setIntegral_mono_on
      (integrableOn_const.mpr (Or.inr (by rw [Real.volume_Ioc]; exact ENNReal.ofReal_lt_top)))
      integrable_normPdf.integrableOn measurableSet_Ioc hc
  have h2 : ∫ _t in Ioc a b, c = (b - a) * c := by
    rw [setIntegral_const, Real.volume_Ioc, smul_eq_mul, ENNReal.toReal_ofReal (by linarith)]
  linarith [h1, h2.le, h2.ge]

theorem normCdf_zero : normCdf 0 = 1 / 2 := by
  have hsplit : normCdf 0 + ∫ t in Ioi (0:ℝ), normPdf t = 1 := by
    unfold normCdf
    rw [← compl_Iic]
    rw [integral_add_compl measurableSet_Iic integrable_normPdf, integral_normPdf]
  have hsym : (∫ t in Ioi (0:ℝ), normPdf t) = normCdf 0 := by
    unfold normCdf
    have h1 : (∫ t in Iic (0:ℝ), normPdf (-t)) = ∫ t in Ioi (-(0:ℝ)), normPdf t :=
      integral_comp_neg_Iic 0 normPdf
    have h2 : ∀ t : ℝ, normPdf (-t) = normPdf t := by
      intro t; unfold normPdf; ring_nf
    simp_rw [h2] at h1
    rw [neg_zero] at h1
    exact h1.symm
  linarith

/-- Strictly above one half on positive arguments. -/
theorem normCdf_gt_half {x : ℝ} (hx : 0 < x) : 1 / 2 < normCdf x := by
  have h := normCdf_add_Ioc hx.le (a := 0) (b := x)
  have hlow := integral_Ioc_normPdf_ge hx.le (normPdf x) ?_
  · rw [normCdf_zero] at h
    nlinarith [normPdf_pos x]
  · intro t ht
    exact normPdf_le_normPdf (by nlinarith [ht.1, ht.2, hx])

/-- Strictly below one half on negative arguments. -/
theorem normCdf_lt_half {x : ℝ} (hx : x < 0) : normCdf x < 1 / 2 := by
  have h := normCdf_add_Ioc hx.le (a := x) (b := 0)
  have hlow := integral_Ioc_normPdf_ge hx.le (normPdf x) ?_
  · rw [normCdf_zero] at h
    nlinarith [normPdf_pos x]
  · intro t ht
    exact normPdf_le_normPdf (by nlinarith [ht.1, ht.2, hx])

/-- Strictly below one everywhere (stated for nonnegative arguments). -/
theorem normCdf_lt_one {x : ℝ} (hx : 0 ≤ x) : normCdf x < 1 := by
  have hsplit : normCdf x + ∫ t in Ioi x, normPdf t = 1 := by
    unfold normCdf
    rw [← compl_Iic]
    rw [integral_add_compl measurableSet_Iic integrable_normPdf, integral_normPdf]
  have hmono : (∫ t in Ioc x (x+1), normPdf t) ≤ ∫ t in Ioi x, normPdf t := by
    apply setIntegral_mono_set integrable_normPdf.integrableOn
      (Filter.Eventually.of_forall normPdf_nonneg)
      (HasSubset.Subset.eventuallyLE Ioc_subset_Ioi_self)
  have hlow := integral_Ioc_normPdf_ge (by linarith : x ≤ x + 1) (normPdf (x+1)) ?_
  · nlinarith [normPdf_pos (x+1)]
  · intro t ht
    exact normPdf_le_normPdf (by nlinarith [ht.1, ht.2, hx])


/-! ## Black-Scholes pricing kernel (engine/black_scholes.py) -/

/-- Value of `config.RISK_FREE_RATE`. -/
def RISK_FREE_RATE : ℝ := 0.05

/-- Option type; the engine constructs only calls and puts. -/
inductive OptType where
  | call : OptType
  | put : OptType
deriving DecidableEq, Repr

/-- BUY / SELL action of a leg. -/
inductive Act where
  | buy : Act
  | sell : Act
deriving DecidableEq, Repr

/-- The `d1` term of the Black-Scholes formulas. -/
def bs_d1 (S K T r sigma : ℝ) : ℝ :=
  (Real.log (S / K) + (r + sigma ^ 2 / 2) * T) / (sigma * Real.sqrt T)

/-- Model of `black_scholes_delta`. -/
def black_scholes_delta (S K T r sigma : ℝ) (ty : OptType) : ℝ :=
  if T ≤ 0 ∨ sigma ≤ 0 then 0
  else
    match ty with
    | .call => normCdf (bs_d1 S K T r sigma)
    | .put => normCdf (bs_d1 S K T r sigma) - 1

/-- Model of `black_scholes_price`. -/
def black_scholes_price (S K T r sigma : ℝ) (ty : OptType) : ℝ :=
  if T ≤ 0 ∨ sigma ≤ 0 then
    max 0 (match ty with | .call => S - K | .put => K - S)
  else
    let d1 := bs_d1 S K T r sigma
    let d2 := d1 - sigma * Real.sqrt T
    match ty with
    | .call => S * normCdf d1 - K * Real.exp (-r * T) * normCdf d2
    | .put => K * Real.exp (-r * T) * normCdf (-d2) - S * normCdf (-d1)

/-- Model of `black_scholes_gamma`. -/
def black_scholes_gamma (S K T r sigma : ℝ) : ℝ :=
  if T ≤ 0 ∨ sigma ≤ 0 then 0
  else normPdf (bs_d1 S K T r sigma) / (S * sigma * Real.sqrt T)

/-- Model of `black_scholes_theta` (per calendar day). -/
def black_scholes_theta (S K T r sigma : ℝ) (ty : OptType) : ℝ :=
  if T ≤ 0 ∨ sigma ≤ 0 then 0
  else
    let d1 := bs_d1 S K T r sigma
    let d2 := d1 - sigma * Real.sqrt T
    let common := -(S * normPdf d1 * sigma) / (2 * Real.sqrt T)
    (match ty with
     | .call => common - r * K * Real.exp (-r * T) * normCdf d2
     | .put => common + r * K * Real.exp (-r * T) * normCdf (-d2)) / 365

/-- Model of `black_scholes_vega` (per 1% IV move). -/
def black_scholes_vega (S K T r sigma : ℝ) : ℝ :=
  if T ≤ 0 ∨ sigma ≤ 0 then 0
  else S * normPdf (bs_d1 S K T r sigma) * Real.sqrt T / 100

/-! ## Legs and position valuation -/

/-- One leg of a strategy (dict with keys action/type/strike/exp/dte/price). -/
structure Leg where
  action : Act
  ty : OptType
  strike : ℝ
  expDay : ℤ
  dte : ℤ
  price : ℝ

/-- Sign `1` for BUY legs, `-1` for SELL legs. -/
def legSign (l : Leg) : ℝ := match l.action with | .buy => 1 | .sell => -1

/-- Per-leg greeks record produced by `compute_leg_greeks`. -/
structure LegGreeks where
  delta : ℝ
  gamma : ℝ
  theta : ℝ
  vega : ℝ
  iv : ℝ

/-- Model of `compute_leg_greeks`. -/
def compute_leg_greeks (l : Leg) (S T sigma : ℝ) : LegGreeks :=
  { delta := roundTo 4 (black_scholes_delta S l.strike T RISK_FREE_RATE sigma l.ty * legSign l)
    gamma := roundTo 4 (black_scholes_gamma S l.strike T RISK_FREE_RATE sigma * legSign l)
    theta := roundTo 4 (black_scholes_theta S l.strike T RISK_FREE_RATE sigma l.ty * legSign l)
    vega := roundTo 4 (black_scholes_vega S l.strike T RISK_FREE_RATE sigma * legSign l)
    iv := roundTo 1 (sigma * 100) }

/-- Model of `simulate_pnl`. -/
def simulate_pnl (legs : List Leg) (target_spot : ℝ) (days_to_target : ℤ)
    (current_sigma : ℝ) (qty : ℤ) : ℝ :=
  let T_target : ℝ := ((max days_to_target 1 : ℤ) : ℝ) / 365
  let initial_value := legs.foldl (fun acc l => acc + legSign l * l.price) 0
  let new_value := legs.foldl
    (fun acc l => acc + legSign l *
      black_scholes_price target_spot l.strike T_target RISK_FREE_RATE current_sigma l.ty) 0
  roundTo 2 ((new_value - initial_value) * 100 * (qty : ℝ))

/-! ## Probability / expectation integrator -/

/-- The `np.linspace(-4, 4, 500)` grid point `i`. -/
def gridZ (i : ℕ) : ℝ := -4 + (i : ℝ) * (8 / 499)

/-- Grid spacing `dz`. -/
def gridDz : ℝ := 8 / 499

/-- Integration weight `norm.pdf(z) * dz` at grid point `i`. -/
def gridW (i : ℕ) : ℝ := normPdf (gridZ i) * gridDz

/-- Output record of `compute_real_probabilities` (`p_partial_loss` of the
source is rendered `p_part_loss`). -/
structure ProbResult where
  p_take_profit : ℝ
  p_breakeven : ℝ
  p_part_loss : ℝ
  p_max_loss : ℝ
  expected_pnl : ℝ

/-- The P&L evaluated at grid point `i` of the integration loop of
`compute_real_probabilities`: the underlying moves for
`holding_days = max(1, dte-21)` days under GBM with volatility `sm`, and
the legs are then repriced over the remaining `min(21, dte)` days at the
chain volatility `sigma`. -/
def crpPnl (legs : List Leg) (spot : ℝ) (dte : ℤ) (sigma : ℝ) (qty : ℤ)
    (sm : ℝ) (i : ℕ) : ℝ :=
  let holding_days : ℤ := max 1 (dte - 21)
  let remaining_dte : ℤ := min 21 dte
  let T_holding : ℝ := (holding_days : ℝ) / 365
  let drift := (RISK_FREE_RATE - sm ^ 2 / 2) * T_holding
  let vol := sm * Real.sqrt T_holding
  simulate_pnl legs (spot * Real.exp (drift + vol * gridZ i)) remaining_dte sigma qty

/-- Model of `compute_real_probabilities`. -/
def compute_real_probabilities (legs : List Leg) (spot : ℝ) (dte : ℤ)
    (sigma : ℝ) (qty : ℤ) (take_profit max_risk : ℝ)
    (sigma_move : Option ℝ) : ProbResult :=
  let sm := sigma_move.getD sigma
  let m_tp := ∑ i in Finset.range 500,
    if take_profit ≤ crpPnl legs spot dte sigma qty sm i then gridW i else 0
  let m_be := ∑ i in Finset.range 500,
    if 0 ≤ crpPnl legs spot dte sigma qty sm i then gridW i else 0
  let m_ml := ∑ i in Finset.range 500,
    if crpPnl legs spot dte sigma qty sm i ≤ -max_risk * 0.95 then gridW i else 0
  let epnl := ∑ i in Finset.range 500, crpPnl legs spot dte sigma qty sm i * gridW i
  let p_tp_pct := roundTo 1 (max 0.1 (min 99.9 (m_tp * 100)))
  let p_be_pct := roundTo 1 (max 0.1 (min 99.9 (m_be * 100)))
  let p_ml_pct := roundTo 1 (max 0.1 (min 99.9 (m_ml * 100)))
  { p_take_profit := p_tp_pct
    p_breakeven := p_be_pct
    p_part_loss := roundTo 1 (max 0 (100 - p_be_pct - p_ml_pct))
    p_max_loss := p_ml_pct
    expected_pnl := roundTo 2 epnl }


/-! ## Options chain data and strike selection helpers (engine/strategy.py) -/

/-- One row of an options chain. -/
structure Quote where
  strike : ℝ
  bid : ℝ
  ask : ℝ
  lastPrice : ℝ
  openInterest : ℤ
  impliedVolatility : Option ℝ

/-- First-preference argmin of `f` over a list. Models pandas `idxmin` and
Python `min(..., key=...)`, both of which return the first minimiser. -/
def argminBy {α : Type} (f : α → ℝ) : List α → Option α
  | [] => none
  | x :: xs => some (xs.foldl (fun b a => if f a < f b then a else b) x)

/-- Prop-valued list filter. -/
def filterP {α : Type} (p : α → Prop) [DecidablePred p] : List α → List α
  | [] => []
  | x :: xs => if p x then x :: filterP p xs else filterP p xs

/-- Insertion into an ascending-sorted list of reals. -/
def insertAsc (x : ℝ) : List ℝ → List ℝ
  | [] => [x]
  | y :: ys => if x ≤ y then x :: y :: ys else y :: insertAsc x ys

/-- Ascending sort of a list of reals. -/
def sortAsc (l : List ℝ) : List ℝ := l.foldr insertAsc []

/-- Model of `pandas.Series.median`: middle of the sorted values (mean of
the two middle values for even length). -/
def medianR (l : List ℝ) : ℝ :=
  let s := sortAsc l
  let n := l.length
  if n % 2 = 1 then s.getD (n / 2) 0
  else (s.getD (n / 2 - 1) 0 + s.getD (n / 2) 0) / 2

/-- Model of `sorted(df["strike"].unique())`. -/
def strikesSorted (l : List Quote) : List ℝ := sortAsc (l.map (fun q => q.strike)).dedup

/-- Model of `min(candidates, key=lambda x: abs(x - target))` with a
default for the (always guarded) empty case. -/
def nearestTo (target : ℝ) (candidates : List ℝ) (dflt : ℝ) : ℝ :=
  (argminBy (fun s => |s - target|) candidates).getD dflt

/-- Model of `find_strike_by_delta`: the (first) row whose absolute
Black-Scholes delta is nearest the target; `None` on an empty frame. -/
def find_strike_by_delta (options_df : List Quote) (S T sigma : ℝ)
    (target_delta : ℝ) (ty : OptType) : Option Quote :=
  argminBy (fun q =>
    abs (abs (black_scholes_delta S q.strike T RISK_FREE_RATE sigma ty) - abs target_delta))
    options_df

/-- Model of `get_mid_price`. -/
def get_mid_price (row : Quote) : ℝ :=
  if 0 < row.bid ∧ 0 < row.ask then roundTo 2 ((row.bid + row.ask) / 2)
  else if 0 < row.lastPrice then roundTo 2 row.lastPrice
  else 0

/-- Model of `estimate_sigma` (the spot argument is unused in the source
as well). -/
def estimate_sigma (options_df : List Quote) (_S : ℝ) : ℝ :=
  let ivs := filterP (fun v => 0 < v) (options_df.filterMap (fun q => q.impliedVolatility))
  if ivs = [] then 0.25 else medianR ivs

/-- The synthetic-quote step of `filter_liquid_options`: a missing bid with a
positive last price is replaced by a ±2% spread around the last price. -/
def synthQuote (q : Quote) : Quote :=
  if q.bid ≤ 0 ∧ 0 < q.lastPrice then
    { q with bid := roundTo 2 (q.lastPrice * 0.98), ask := roundTo 2 (q.lastPrice * 1.02) }
  else q

/-- Model of `filter_liquid_options`: synthesise bid/ask, then keep rows
with positive bid, open interest at least 10 and relative spread at most
40%. -/
def filter_liquid_options (df : List Quote) : List Quote :=
  let s := df.map synthQuote
  let s1 := filterP (fun q => 0 < q.bid) s
  let s2 := filterP (fun q => 10 ≤ q.openInterest) s1
  filterP (fun q => (q.ask - q.bid) / ((q.bid + q.ask) / 2) ≤ 0.40) s2

/-! ## Strategy engine data model -/

/-- A fetched chain snapshot; the expiration
label is modelled as an epoch-day integer. -/
structure Chain where
  expDay : ℤ
  calls : List Quote
  puts : List Quote
  dte : ℤ

/-- The provider snapshot consumed by one `build_strategy` call. -/
structure ProviderData where
  chain : Chain
  leaps : Option Chain
  shortTerm : Option Chain

/-- Directional bias (`"Neutre" / "Haussier" / "Baissier"`). -/
inductive Bias where
  | neutre : Bias
  | haussier : Bias
  | baissier : Bias
deriving DecidableEq, Repr

/-- The strategy structure selected by a branch. -/
inductive StratName where
  | ironCondor : StratName
  | bullPutSpread : StratName
  | bearCallSpread : StratName
  | pmcc : StratName
  | calendarSpread : StratName
  | bearPutSpreadDebit : StratName
  | cashSecuredPut : StratName
  | bullCallSpread : StratName
  | bearPutSpread : StratName
deriving DecidableEq, Repr

/-- Categorised `ValueError` rejections of `build_strategy`; only the
category, not the French message text, is modelled. -/
inductive BuildError where
  | illiquid : BuildError
  | pennyStock : BuildError
  | noStrikes : BuildError
  | strikesTooWide : BuildError
  | illogicalPrices : BuildError
  | insufficientBudget : BuildError
  | noLeaps : BuildError
  | noShortTerm : BuildError
  | negativeEV : BuildError
deriving DecidableEq, Repr

/-- The fields of `result` that a branch of `build_strategy` fills in
before the shared tail. -/
structure Draft where
  name : StratName
  legs : List Leg
  credit_or_debit : ℝ
  max_risk : ℝ
  max_profit : ℝ

/-! ## The eight structure builders -/

/-- Iron-condor branch (identical in the high-vol-neutral and the
mid-vol-neutral cases of the source). -/
def buildIronCondor (spot T sigma budget : ℝ) (calls puts : List Quote)
    (expDay dte : ℤ) : Except BuildError Draft :=
  match find_strike_by_delta puts spot T sigma (-0.16) .put,
        find_strike_by_delta calls spot T sigma 0.16 .call with
  | some sell_put0, some sell_call0 =>
    let sps0 := sell_put0.strike
    let scs0 := sell_call0.strike
    let sym_dist := min (spot - sps0) (scs0 - spot)
    let sym_put_target := spot - sym_dist
    let sym_call_target := spot + sym_dist
    let put_strikes_all := strikesSorted puts
    let call_strikes_all := strikesSorted calls
    let sell_put_candidates := filterP (fun s => s < spot) put_strikes_all
    let sell_call_candidates := filterP (fun s => spot < s) call_strikes_all
    let sps := if sell_put_candidates ≠ [] ∧ sell_call_candidates ≠ [] then
        nearestTo sym_put_target sell_put_candidates sps0 else sps0
    let scs := if sell_put_candidates ≠ [] ∧ sell_call_candidates ≠ [] then
        nearestTo sym_call_target sell_call_candidates scs0 else scs0
    let sell_put := match List.find? (fun q => q.strike = sps) puts with
      | some r => r | none => sell_put0
    let sell_call := match List.find? (fun q => q.strike = scs) calls with
      | some r => r | none => sell_call0
    let target_width := max 1 (roundTo 0 (spot * 0.015))
    let candidates_put := filterP (fun s => s < sps) put_strikes_all
    let candidates_call := filterP (fun s => scs < s) call_strikes_all
    if candidates_put = [] then .error .noStrikes
    else if candidates_call = [] then .error .noStrikes
    else
      let bps := nearestTo (sps - target_width) candidates_put 0
      let bcs := nearestTo (scs + target_width) candidates_call 0
      let sell_put_price := get_mid_price sell_put
      let sell_call_price := get_mid_price sell_call
      let buy_put_price := match List.find? (fun q => q.strike = bps) puts with
        | some r => get_mid_price r | none => 0
      let buy_call_price := match List.find? (fun q => q.strike = bcs) calls with
        | some r => get_mid_price r | none => 0
      let net_credit := (sell_put_price + sell_call_price) - (buy_put_price + buy_call_price)
      let put_width := sps - bps
      let call_width := bcs - scs
      let max_width := max put_width call_width
      if put_width > target_width * 3 ∨ call_width > target_width * 3 then
        .error .strikesTooWide
      else if net_credit ≤ 0 ∨ net_credit ≥ max_width then .error .illogicalPrices
      else
        let max_risk := max_width * 100 - net_credit * 100
        if max_risk > budget then .error .insufficientBudget
        else .ok
          { name := .ironCondor
            legs := [⟨.sell, .put, sps, expDay, dte, sell_put_price⟩,
                     ⟨.buy, .put, bps, expDay, dte, buy_put_price⟩,
                     ⟨.sell, .call, scs, expDay, dte, sell_call_price⟩,
                     ⟨.buy, .call, bcs, expDay, dte, buy_call_price⟩]
            credit_or_debit := roundTo 2 (net_credit * 100)
            max_risk := roundTo 2 max_risk
            max_profit := roundTo 2 (net_credit * 100) }
  | _, _ => .error .noStrikes

/-- Bull-put-spread branch (high vol, bullish). -/
def buildBullPutSpread (spot T sigma budget : ℝ) (puts : List Quote)
    (expDay dte : ℤ) : Except BuildError Draft :=
  match find_strike_by_delta puts spot T sigma (-0.20) .put with
  | none => .error .noStrikes
  | some sell_put =>
    let sps := sell_put.strike
    let sell_put_price := get_mid_price sell_put
    let target_width := max 1 (roundTo 0 (spot * 0.015))
    let put_strikes := filterP (fun s => s < sps) (strikesSorted puts)
    if put_strikes = [] then .error .noStrikes
    else
      let bps := nearestTo (sps - target_width) put_strikes 0
      let buy_put_price := match List.find? (fun q => q.strike = bps) puts with
        | some r => get_mid_price r | none => 0
      let net_credit := sell_put_price - buy_put_price
      let width := sps - bps
      if width > target_width * 3 then .error .strikesTooWide
      else if net_credit ≤ 0 ∨ net_credit ≥ width then .error .illogicalPrices
      else
        let max_profit := net_credit * 100
        let max_risk := width * 100 - max_profit
        if max_risk > budget then .error .insufficientBudget
        else .ok
          { name := .bullPutSpread
            legs := [⟨.sell, .put, sps, expDay, dte, sell_put_price⟩,
                     ⟨.buy, .put, bps, expDay, dte, buy_put_price⟩]
            credit_or_debit := roundTo 2 max_profit
            max_risk := roundTo 2 max_risk
            max_profit := roundTo 2 max_profit }

/-- Bear-call-spread branch (high vol, bearish). -/
def buildBearCallSpread (spot T sigma budget : ℝ) (calls : List Quote)
    (expDay dte : ℤ) : Except BuildError Draft :=
  match find_strike_by_delta calls spot T sigma 0.20 .call with
  | none => .error .noStrikes
  | some sell_call =>
    let scs := sell_call.strike
    let sell_call_price := get_mid_price sell_call
    let target_width := max 1 (roundTo 0 (spot * 0.015))
    let call_strikes := filterP (fun s => scs < s) (strikesSorted calls)
    if call_strikes = [] then .error .noStrikes
    else
      let bcs := nearestTo (scs + target_width) call_strikes 0
      let buy_call_price := match List.find? (fun q => q.strike = bcs) calls with
        | some r => get_mid_price r | none => 0
      let net_credit := sell_call_price - buy_call_price
      let width := bcs - scs
      if width > target_width * 3 then .error .strikesTooWide
      else if net_credit ≤ 0 ∨ net_credit ≥ width then .error .illogicalPrices
      else
        let max_profit := net_credit * 100
        let max_risk := width * 100 - max_profit
        if max_risk > budget then .error .insufficientBudget
        else .ok
          { name := .bearCallSpread
            legs := [⟨.sell, .call, scs, expDay, dte, sell_call_price⟩,
                     ⟨.buy, .call, bcs, expDay, dte, buy_call_price⟩]
            credit_or_debit := roundTo 2 max_profit
            max_risk := roundTo 2 max_risk
            max_profit := roundTo 2 max_profit }

/-- PMCC branch (low vol, bullish). -/
def buildPMCC (spot T sigma budget : ℝ) (calls : List Quote)
    (leaps : Option Chain) (expDay dte : ℤ) : Except BuildError Draft :=
  match leaps with
  | none => .error .noLeaps
  | some lp =>
    let sigma_leaps := estimate_sigma lp.calls spot
    let leaps_T := (lp.dte : ℝ) / 365
    match find_strike_by_delta lp.calls spot leaps_T sigma_leaps 0.80 .call with
    | none => .error .noStrikes
    | some buy_call =>
      match find_strike_by_delta calls spot T sigma 0.30 .call with
      | none => .error .noStrikes
      | some sell_call =>
        let bcs := buy_call.strike
        let buy_call_price := get_mid_price buy_call
        let scs := sell_call.strike
        let sell_call_price := get_mid_price sell_call
        let net_debit := buy_call_price - sell_call_price
        if net_debit ≤ 0 then .error .illogicalPrices
        else
          let max_risk := net_debit * 100
          if max_risk > budget then .error .insufficientBudget
          else
            let max_profit := (scs - bcs - net_debit) * 100
            .ok
              { name := .pmcc
                legs := [⟨.buy, .call, bcs, lp.expDay, lp.dte, buy_call_price⟩,
                         ⟨.sell, .call, scs, expDay, dte, sell_call_price⟩]
                credit_or_debit := roundTo 2 (-net_debit * 100)
                max_risk := roundTo 2 max_risk
                max_profit := roundTo 2 (max max_profit 0) }

/-- Calendar-spread branch (low vol, neutral). Where the source would hit an
`IndexError` on an empty short-term frame, the model rejects instead. -/
def buildCalendar (spot _T _sigma budget : ℝ) (calls : List Quote)
    (shortTerm : Option Chain) (expDay dte : ℤ) : Except BuildError Draft :=
  match shortTerm with
  | none => .error .noShortTerm
  | some sc =>
    let atm0 := (argminBy (fun s => |s - spot|) (calls.map (fun q => q.strike))).getD 0
    let short_pick : Option (Quote × ℝ) :=
      match List.find? (fun q => q.strike = atm0) sc.calls with
      | some r => some (r, atm0)
      | none =>
        match argminBy (fun q => |q.strike - atm0|) sc.calls with
        | some r => some (r, r.strike)
        | none => none
    match short_pick with
    | none => .error .noStrikes
    | some (short_row, atm) =>
      let sell_price := get_mid_price short_row
      let long_pick : Option Quote :=
        match List.find? (fun q => q.strike = atm) calls with
        | some r => some r
        | none => argminBy (fun q => |q.strike - atm|) calls
      match long_pick with
      | none => .error .noStrikes
      | some long_row =>
        let buy_price := get_mid_price long_row
        let net_debit := buy_price - sell_price
        if net_debit ≤ 0 then .error .illogicalPrices
        else
          let max_risk := net_debit * 100
          if max_risk > budget then .error .insufficientBudget
          else .ok
            { name := .calendarSpread
              legs := [⟨.buy, .call, atm, expDay, dte, buy_price⟩,
                       ⟨.sell, .call, atm, sc.expDay, sc.dte, sell_price⟩]
              credit_or_debit := roundTo 2 (-net_debit * 100)
              max_risk := roundTo 2 max_risk
              max_profit := roundTo 2 (max_risk * 0.5) }

/-- Bear-put-spread branch, used with target delta −0.45 (low vol) and
−0.50 (mid vol). -/
def buildBearPutSpread (nm : StratName) (target_delta : ℝ)
    (spot T sigma budget : ℝ) (puts : List Quote)
    (expDay dte : ℤ) : Except BuildError Draft :=
  match find_strike_by_delta puts spot T sigma target_delta .put with
  | none => .error .noStrikes
  | some buy_put =>
    let bps := buy_put.strike
    let buy_put_price := get_mid_price buy_put
    let target_width := max 1 (roundTo 0 (spot * 0.015))
    let put_strikes := filterP (fun s => s < bps) (strikesSorted puts)
    if put_strikes = [] then .error .noStrikes
    else
      let sps := nearestTo (bps - target_width) put_strikes 0
      let sell_put_price := match List.find? (fun q => q.strike = sps) puts with
        | some r => get_mid_price r | none => 0
      let net_debit := buy_put_price - sell_put_price
      let width := bps - sps
      if width > target_width * 3 then .error .strikesTooWide
      else if net_debit ≤ 0 ∨ net_debit ≥ width then .error .illogicalPrices
      else
        let max_risk := net_debit * 100
        let max_profit := width * 100 - max_risk
        if max_risk > budget then .error .insufficientBudget
        else .ok
          { name := nm
            legs := [⟨.buy, .put, bps, expDay, dte, buy_put_price⟩,
                     ⟨.sell, .put, sps, expDay, dte, sell_put_price⟩]
            credit_or_debit := roundTo 2 (-max_risk)
            max_risk := roundTo 2 max_risk
            max_profit := roundTo 2 max_profit }

/-- Cash-secured-put branch (mid vol, wheel-affordable, not bearish). -/
def buildCashSecuredPut (spot T sigma budget : ℝ) (puts : List Quote)
    (expDay dte : ℤ) : Except BuildError Draft :=
  match find_strike_by_delta puts spot T sigma (-0.25) .put with
  | none => .error .noStrikes
  | some sell_put0 =>
    let sps0 := sell_put0.strike
    let spp0 := get_mid_price sell_put0
    let mr0 := sps0 * 100 - spp0 * 100
    let picked : Except BuildError (ℝ × ℝ × ℝ) :=
      if mr0 > budget then
        let lower_puts := filterP (fun q => q.strike * 100 - spp0 * 100 ≤ budget) puts
        match argminBy (fun q => |q.strike - budget / 100|) lower_puts with
        | none => .error .insufficientBudget
        | some row =>
            let sps := row.strike
            let spp := get_mid_price row
            .ok (sps, spp, sps * 100 - spp * 100)
      else .ok (sps0, spp0, mr0)
    match picked with
    | .error e => .error e
    | .ok (sps, spp, mr) => .ok
      { name := .cashSecuredPut
        legs := [⟨.sell, .put, sps, expDay, dte, spp⟩]
        credit_or_debit := roundTo 2 (spp * 100)
        max_risk := roundTo 2 mr
        max_profit := roundTo 2 (spp * 100) }

/-- Bull-call-spread branch (mid vol, bullish, wheel not affordable). -/
def buildBullCallSpread (spot T sigma budget : ℝ) (calls : List Quote)
    (expDay dte : ℤ) : Except BuildError Draft :=
  match find_strike_by_delta calls spot T sigma 0.50 .call with
  | none => .error .noStrikes
  | some buy_call =>
    let bcs := buy_call.strike
    let buy_call_price := get_mid_price buy_call
    let target_width := max 1 (roundTo 0 (spot * 0.015))
    let call_strikes := filterP (fun s => bcs < s) (strikesSorted calls)
    if call_strikes = [] then .error .noStrikes
    else
      let scs := nearestTo (bcs + target_width) call_strikes 0
      let sell_call_price := match List.find? (fun q => q.strike = scs) calls with
        | some r => get_mid_price r | none => 0
      let net_debit := buy_call_price - sell_call_price
      let width := scs - bcs
      if width > target_width * 3 then .error .strikesTooWide
      else if net_debit ≤ 0 ∨ net_debit ≥ width then .error .illogicalPrices
      else
        let max_risk := net_debit * 100
        let max_profit := width * 100 - max_risk
        if max_risk > budget then .error .insufficientBudget
        else .ok
          { name := .bullCallSpread
            legs := [⟨.buy, .call, bcs, expDay, dte, buy_call_price⟩,
                     ⟨.sell, .call, scs, expDay, dte, sell_call_price⟩]
            credit_or_debit := roundTo 2 (-max_risk)
            max_risk := roundTo 2 max_risk
            max_profit := roundTo 2 max_profit }

/-! ## The shared strategy tail: exit plan, probabilities, greeks, sizing -/

/-- Everything `build_strategy` returns. `exit_time_stop_day` is the
time-stop date and `exit_time_stop_dte` its distance from today, both as
epoch days. -/
structure StratResult where
  name : StratName
  legs : List Leg
  credit_or_debit : ℝ
  max_risk : ℝ
  max_profit : ℝ
  pop : ℝ
  expirationDay : ℤ
  dte : ℤ
  sigma : ℝ
  exit_take_profit : ℝ
  exit_time_stop_day : ℤ
  exit_time_stop_dte : ℤ
  probabilities : ProbResult
  win_rate : ℝ
  ev : ℝ
  greeks_delta : ℝ
  greeks_gamma : ℝ
  greeks_theta : ℝ
  greeks_vega : ℝ
  greeks_iv : ℝ
  qty : ℤ

/-- Lines 886-927 of `strategy.py`: exit plan, log-normal probabilities and
aggregated greeks, all at quantity 1. `histVol` is the (effectful)
`compute_historical_vol(ticker)` value, `today` is `dt.date.today()`. -/
def assembleStrategy (spot sigma : ℝ) (expDay dte : ℤ)
    (histVol : Option ℝ) (today : ℤ) (d : Draft) : StratResult :=
  let take_profit_amount := roundTo 2 (|d.max_profit| * 0.5)
  let time_stop_day := expDay - 21
  let sigma_move := histVol.getD sigma
  let probs := compute_real_probabilities d.legs spot dte sigma 1
    take_profit_amount d.max_risk (some sigma_move)
  let gd := d.legs.foldl
    (fun acc l => acc + (compute_leg_greeks l spot ((l.dte : ℝ) / 365) sigma).delta) 0
  let gg := d.legs.foldl
    (fun acc l => acc + (compute_leg_greeks l spot ((l.dte : ℝ) / 365) sigma).gamma) 0
  let gt := d.legs.foldl
    (fun acc l => acc + (compute_leg_greeks l spot ((l.dte : ℝ) / 365) sigma).theta) 0
  let gv := d.legs.foldl
    (fun acc l => acc + (compute_leg_greeks l spot ((l.dte : ℝ) / 365) sigma).vega) 0
  { name := d.name
    legs := d.legs
    credit_or_debit := d.credit_or_debit
    max_risk := d.max_risk
    max_profit := d.max_profit
    pop := probs.p_breakeven
    expirationDay := expDay
    dte := dte
    sigma := sigma
    exit_take_profit := take_profit_amount
    exit_time_stop_day := time_stop_day
    exit_time_stop_dte := time_stop_day - today
    probabilities := probs
    win_rate := probs.p_take_profit
    ev := probs.expected_pnl
    greeks_delta := roundTo 2 (gd * 100)
    greeks_gamma := roundTo 2 (gg * 100)
    greeks_theta := roundTo 2 (gt * 100)
    greeks_vega := roundTo 2 (gv * 100)
    greeks_iv := roundTo 1 (sigma * 100)
    qty := 1 }

/-- Lines 928-942: position sizing (`qty = max(1, budget // max_risk)` when
`max_risk > 0`) and one-shot scaling of every dollar field when `qty > 1`. -/
def applySizing (budget : ℝ) (s : StratResult) : StratResult :=
  let qty : ℤ := if 0 < s.max_risk then max 1 (Int.floor (budget / s.max_risk)) else 1
  if 1 < qty then
    { s with
      qty := qty
      max_risk := roundTo 2 (s.max_risk * (qty : ℝ))
      max_profit := roundTo 2 (s.max_profit * (qty : ℝ))
      credit_or_debit := roundTo 2 (s.credit_or_debit * (qty : ℝ))
      exit_take_profit := roundTo 2 (s.exit_take_profit * (qty : ℝ))
      ev := roundTo 2 (s.ev * (qty : ℝ))
      greeks_delta := roundTo 2 (s.greeks_delta * (qty : ℝ))
      greeks_gamma := roundTo 2 (s.greeks_gamma * (qty : ℝ))
      greeks_theta := roundTo 2 (s.greeks_theta * (qty : ℝ))
      greeks_vega := roundTo 2 (s.greeks_vega * (qty : ℝ)) }
  else { s with qty := qty }

/-- Lines 928-951: sizing followed by the EV kill switch
(`reject when ev < -0.20 * max_risk`, both quantity-scaled). -/
def sizeAndKill (budget : ℝ) (s : StratResult) : Except BuildError StratResult :=
  let s2 := applySizing budget s
  if s2.ev < -0.20 * s2.max_risk then .error .negativeEV else .ok s2

/-- Model of `build_strategy`. Beyond the Python signature, the two effectful reads
of the source are explicit inputs: `histVol` is the
`compute_historical_vol(ticker)` result (line 899) and `today` is
`dt.date.today()` (line 894) as an epoch day; `ticker` and `vol_symbol`
only feed message strings and provider calls and are not modelled. -/
def build_strategy (spot vix iv_rank : ℝ) (bias : Bias) (budget : ℝ)
    (prov : ProviderData) (histVol : Option ℝ) (today : ℤ) :
    Except BuildError StratResult :=
  let calls := filter_liquid_options prov.chain.calls
  let puts := filter_liquid_options prov.chain.puts
  if calls.length < 3 ∨ puts.length < 3 then .error .illiquid
  else if spot < 10 then .error .pennyStock
  else
    let expDay := prov.chain.expDay
    let dte := prov.chain.dte
    let T := (dte : ℝ) / 365
    let sigma := estimate_sigma (calls ++ puts) spot
    let draftE : Except BuildError Draft :=
      if iv_rank > 50 ∨ vix > 20 then
        match bias with
        | .neutre => buildIronCondor spot T sigma budget calls puts expDay dte
        | .haussier => buildBullPutSpread spot T sigma budget puts expDay dte
        | .baissier => buildBearCallSpread spot T sigma budget calls expDay dte
      else if iv_rank < 20 ∧ vix < 15 then
        match bias with
        | .haussier => buildPMCC spot T sigma budget calls prov.leaps expDay dte
        | .neutre => buildCalendar spot T sigma budget calls prov.shortTerm expDay dte
        | .baissier => buildBearPutSpread .bearPutSpreadDebit (-0.45) spot T sigma budget puts expDay dte
      else
        if budget ≥ spot * 100 ∧ bias ≠ .baissier then
          buildCashSecuredPut spot T sigma budget puts expDay dte
        else
          match bias with
          | .haussier => buildBullCallSpread spot T sigma budget calls expDay dte
          | .baissier => buildBearPutSpread .bearPutSpread (-0.50) spot T sigma budget puts expDay dte
          | .neutre => buildIronCondor spot T sigma budget calls puts expDay dte
    match draftE with
    | .error e => .error e
    | .ok draft =>
      sizeAndKill budget (assembleStrategy spot sigma expDay dte histVol today draft)


/-! ## Generic helper lemmas -/

theorem foldl_add_eq_sum {α : Type} (f : α → ℝ) (l : List α) (a : ℝ) :
    l.foldl (fun acc x => acc + f x) a = a + (l.map f).sum := by
  induction l generalizing a with
  | nil => simp
  | cons x xs ih => simp only [List.foldl_cons, List.map_cons, List.sum_cons, ih]; ring

theorem gridW_nonneg (i : ℕ) : 0 ≤ gridW i := by
  unfold gridW gridDz
  have := normPdf_nonneg (gridZ i)
  positivity

/-- A dollar amount that is an exact number of cents. -/
def isCents (x : ℝ) : Prop := ∃ k : ℤ, x = (k : ℝ) / 100

theorem isCents_roundTo (x : ℝ) : isCents (roundTo 2 x) := by
  refine ⟨Int.floor (x * 10 ^ 2 + 1 / 2), ?_⟩
  unfold roundTo
  norm_num

theorem roundTo_cents_mul {x : ℝ} (hx : isCents x) (q : ℤ) :
    roundTo 2 (x * (q : ℝ)) = x * (q : ℝ) := by
  obtain ⟨k, rfl⟩ := hx
  have h : (k : ℝ) / 100 * (q : ℝ) = ((k * q : ℤ) : ℝ) / 10 ^ 2 := by push_cast; ring
  rw [h, roundTo_int_div]

theorem roundTo_tenth_fix (k : ℤ) : roundTo 1 ((k : ℝ) / 10) = (k : ℝ) / 10 := by
  have h := roundTo_int_div 1 k
  norm_num at h
  exact h

theorem roundTo_one_bounds {x lo hi : ℝ} (hlo : lo ≤ x) (hhi : x ≤ hi)
    (klo khi : ℤ) (helo : lo = (klo : ℝ) / 10) (hehi : hi = (khi : ℝ) / 10) :
    lo ≤ roundTo 1 x ∧ roundTo 1 x ≤ hi := by
  have h1 : roundTo 1 lo = lo := by rw [helo]; exact roundTo_tenth_fix klo
  have h2 : roundTo 1 hi = hi := by rw [hehi]; exact roundTo_tenth_fix khi
  exact ⟨h1 ▸ roundTo_mono 1 hlo, h2 ▸ roundTo_mono 1 hhi⟩

/-! ## Claim C2: degenerate Black-Scholes boundary -/

/-- C2: whenever `T ≤ 0` or `σ ≤ 0`, `black_scholes_price` returns exactly
the intrinsic value (`max 0 (S-K)` for calls, `max 0 (K-S)` for puts) and
delta, gamma, theta and vega all return exactly 0. -/
theorem claim_C2_degenerate_boundary (S K T r sigma : ℝ) (ty : OptType)
    (h : T ≤ 0 ∨ sigma ≤ 0) :
    black_scholes_price S K T r sigma ty =
      max 0 (match ty with | .call => S - K | .put => K - S) ∧
    black_scholes_delta S K T r sigma ty = 0 ∧
    black_scholes_gamma S K T r sigma = 0 ∧
    black_scholes_theta S K T r sigma ty = 0 ∧
    black_scholes_vega S K T r sigma = 0 := by
  unfold black_scholes_price black_scholes_delta black_scholes_gamma
    black_scholes_theta black_scholes_vega
  rw [if_pos h, if_pos h, if_pos h, if_pos h, if_pos h]
  exact ⟨rfl, rfl, rfl, rfl, rfl⟩

/-- C2 witness: concrete evaluation at T = 0. -/
theorem claim_C2_witness :
    ((0:ℝ) ≤ 0 ∨ (0.25:ℝ) ≤ 0) ∧
    black_scholes_price 100 90 0 0.05 0.25 .call = 10 ∧
    black_scholes_delta 100 90 0 0.05 0.25 .call = 0 ∧
    black_scholes_gamma 100 90 0 0.05 0.25 = 0 ∧
    black_scholes_theta 100 90 0 0.05 0.25 .call = 0 ∧
    black_scholes_vega 100 90 0 0.05 0.25 = 0 := by
  have h := claim_C2_degenerate_boundary 100 90 0 0.05 0.25 .call (Or.inl le_rfl)
  refine ⟨Or.inl le_rfl, ?_, h.2.1, h.2.2.1, h.2.2.2.1, h.2.2.2.2⟩
  rw [h.1]
  norm_num

/-! ## Claim C3: simulate_pnl closed form -/

/-- C3 (amended): `simulate_pnl` returns the signed-revaluation formula of
the claim, with tenor `max(days_to_target, 1)/365` rather than
`days_to_target/365`, and rounded to the cent. -/
theorem claim_C3_simulate_pnl (legs : List Leg) (target_spot : ℝ)
    (days_to_target : ℤ) (sigma : ℝ) (qty : ℤ) :
    simulate_pnl legs target_spot days_to_target sigma qty =
      roundTo 2
        (((legs.map fun l => legSign l *
            black_scholes_price target_spot l.strike
              (((max days_to_target 1 : ℤ) : ℝ) / 365) RISK_FREE_RATE sigma l.ty).sum -
          (legs.map fun l => legSign l * l.price).sum) * 100 * (qty : ℝ)) := by
  simp only [simulate_pnl, foldl_add_eq_sum, zero_add]

/-- C3 counterexample: the claim asserts the exact (unrounded) formula value;
at this input the formula value is −0.004 but `simulate_pnl` returns the
cent-rounded 0. -/
theorem claim_C3_cex :
    simulate_pnl [⟨.buy, .call, 100, 66, 21, 0.00004⟩] 100 21 0 1 = 0 ∧
    ((([⟨.buy, .call, 100, 66, 21, 0.00004⟩] : List Leg).map fun l => legSign l *
        black_scholes_price 100 l.strike (((21 : ℤ) : ℝ) / 365) RISK_FREE_RATE 0 l.ty).sum -
      (([⟨.buy, .call, 100, 66, 21, 0.00004⟩] : List Leg).map fun l => legSign l * l.price).sum)
        * 100 * ((1 : ℤ) : ℝ) = -0.004 ∧
    (0 : ℝ) ≠ -0.004 := by
  refine ⟨?_, ?_, by norm_num⟩
  · unfold simulate_pnl black_scholes_price legSign roundTo
    norm_num
  · unfold black_scholes_price legSign
    norm_num

/-! ## Claim C6: the EV kill switch -/

/-- A concrete post-assembly strategy record whose (quantity-scaled)
expected pnl is −250 against a scaled max risk of 300. -/
def evKillExample : StratResult :=
  { name := .bullPutSpread
    legs := []
    credit_or_debit := 100
    max_risk := 300
    max_profit := 100
    pop := 50
    expirationDay := 66
    dte := 45
    sigma := 0.25
    exit_take_profit := 50
    exit_time_stop_day := 45
    exit_time_stop_dte := 45
    probabilities := ⟨50, 50, 0, 0.1, -250⟩
    win_rate := 50
    ev := -250
    greeks_delta := 0
    greeks_gamma := 0
    greeks_theta := 0
    greeks_vega := 0
    greeks_iv := 25
    qty := 1 }

/-- C6: after position sizing the construction raises the EV rejection
exactly when the scaled expected pnl is below −0.20 times the scaled max
risk; in particular scaled ev = −250 against scaled max risk = 300
(threshold −60) raises. -/
theorem claim_C6_ev_kill_switch :
    (∀ (budget : ℝ) (s : StratResult),
      sizeAndKill budget s = .error .negativeEV ↔
        (applySizing budget s).ev < -0.20 * (applySizing budget s).max_risk) ∧
    sizeAndKill 300 evKillExample = .error .negativeEV := by
  constructor
  · intro budget s
    simp only [sizeAndKill]
    by_cases h : (applySizing budget s).ev < -0.20 * (applySizing budget s).max_risk
    · simp [h]
    · simp [h]
  · simp only [sizeAndKill, applySizing, evKillExample]
    norm_num

/-! ## Claim C7: position sizing and one-shot scaling -/

/-- C7: on every sized strategy the quantity is `max 1 ⌊budget/max_risk⌋`
and, provided the quantity-1 baseline dollar fields are exact cent amounts
(which every builder guarantees via cent rounding), every scaled field is
exactly `qty` times its baseline. -/
theorem claim_C7_sizing (budget : ℝ) (s : StratResult) (hb : 0 < budget)
    (h1 : isCents s.max_risk) (h2 : isCents s.max_profit)
    (h3 : isCents s.credit_or_debit) (h4 : isCents s.exit_take_profit)
    (h5 : isCents s.ev) (h6 : isCents s.greeks_delta)
    (h7 : isCents s.greeks_gamma) (h8 : isCents s.greeks_theta)
    (h9 : isCents s.greeks_vega) :
    (applySizing budget s).qty = max 1 (Int.floor (budget / s.max_risk)) ∧
    (applySizing budget s).max_risk = s.max_risk * (((applySizing budget s).qty : ℤ) : ℝ) ∧
    (applySizing budget s).max_profit = s.max_profit * (((applySizing budget s).qty : ℤ) : ℝ) ∧
    (applySizing budget s).credit_or_debit
      = s.credit_or_debit * (((applySizing budget s).qty : ℤ) : ℝ) ∧
    (applySizing budget s).exit_take_profit
      = s.exit_take_profit * (((applySizing budget s).qty : ℤ) : ℝ) ∧
    (applySizing budget s).ev = s.ev * (((applySizing budget s).qty : ℤ) : ℝ) ∧
    (applySizing budget s).greeks_delta
      = s.greeks_delta * (((applySizing budget s).qty : ℤ) : ℝ) ∧
    (applySizing budget s).greeks_gamma
      = s.greeks_gamma * (((applySizing budget s).qty : ℤ) : ℝ) ∧
    (applySizing budget s).greeks_theta
      = s.greeks_theta * (((applySizing budget s).qty : ℤ) : ℝ) ∧
    (applySizing budget s).greeks_vega
      = s.greeks_vega * (((applySizing budget s).qty : ℤ) : ℝ) := by
  have hqty : (if 0 < s.max_risk then max 1 (Int.floor (budget / s.max_risk)) else 1)
      = max 1 (Int.floor (budget / s.max_risk)) := by
    by_cases hmr : 0 < s.max_risk
    · rw [if_pos hmr]
    · rw [if_neg hmr]
      rcases lt_or_eq_of_le (not_lt.mp hmr) with hlt | heq
      · have hdiv : budget / s.max_risk < 0 := div_neg_of_pos_of_neg hb hlt
        have hfl : Int.floor (budget / s.max_risk) ≤ 0 := by
          have h0 := Int.floor_le_floor (α := ℝ) hdiv.le
          simpa using h0
        omega
      · rw [heq, div_zero]
        norm_num
  simp only [applySizing]
  rw [hqty]
  set q : ℤ := max 1 (Int.floor (budget / s.max_risk)) with hq
  by_cases hgt : 1 < q
  · rw [if_pos hgt]
    exact ⟨rfl, roundTo_cents_mul h1 q, roundTo_cents_mul h2 q, roundTo_cents_mul h3 q,
      roundTo_cents_mul h4 q, roundTo_cents_mul h5 q, roundTo_cents_mul h6 q,
      roundTo_cents_mul h7 q, roundTo_cents_mul h8 q, roundTo_cents_mul h9 q⟩
  · rw [if_neg hgt]
    have hone : q = 1 := by
      have hle : 1 ≤ q := le_max_left _ _
      omega
    rw [hone]
    norm_num

/-- C7 witness: a concrete sized strategy at budget 650 and per-contract max
risk 300 (so qty = 2). -/
def sizingExample : StratResult :=
  { evKillExample with ev := 0, probabilities := ⟨50, 50, 0, 0.1, 0⟩ }

theorem claim_C7_witness :
    (0 : ℝ) < 650 ∧
    (applySizing 650 sizingExample).qty = max 1 (Int.floor ((650 : ℝ) / 300)) ∧
    (applySizing 650 sizingExample).max_risk
      = (300 : ℝ) * (((applySizing 650 sizingExample).qty : ℤ) : ℝ) := by
  have h := claim_C7_sizing 650 sizingExample (by norm_num)
    ⟨30000, by norm_num [sizingExample, evKillExample]⟩
    ⟨10000, by norm_num [sizingExample, evKillExample]⟩
    ⟨10000, by norm_num [sizingExample, evKillExample]⟩
    ⟨5000, by norm_num [sizingExample, evKillExample]⟩
    ⟨0, by norm_num [sizingExample, evKillExample]⟩
    ⟨0, by norm_num [sizingExample, evKillExample]⟩
    ⟨0, by norm_num [sizingExample, evKillExample]⟩
    ⟨0, by norm_num [sizingExample, evKillExample]⟩
    ⟨0, by norm_num [sizingExample, evKillExample]⟩
  refine ⟨by norm_num, h.1, ?_⟩
  have h2 := h.2.1
  rw [show sizingExample.max_risk = (300:ℝ) from by norm_num [sizingExample, evKillExample]] at h2
  exact h2


/-! ## Claim C9: determinism -/

/-- C9 (amended): `build_strategy` is a pure function of the full explicit
input tuple — the claimed inputs plus the evaluation date and the
historical-volatility fetch, which the source reads effectfully; two calls
with identical such tuples return identical results. -/
theorem claim_C9_deterministic
    (spot₁ vix₁ ivr₁ : ℝ) (bias₁ : Bias) (budget₁ : ℝ) (prov₁ : ProviderData)
    (hv₁ : Option ℝ) (today₁ : ℤ)
    (spot₂ vix₂ ivr₂ : ℝ) (bias₂ : Bias) (budget₂ : ℝ) (prov₂ : ProviderData)
    (hv₂ : Option ℝ) (today₂ : ℤ)
    (h : spot₁ = spot₂ ∧ vix₁ = vix₂ ∧ ivr₁ = ivr₂ ∧ bias₁ = bias₂ ∧
      budget₁ = budget₂ ∧ prov₁ = prov₂ ∧ hv₁ = hv₂ ∧ today₁ = today₂) :
    build_strategy spot₁ vix₁ ivr₁ bias₁ budget₁ prov₁ hv₁ today₁ =
      build_strategy spot₂ vix₂ ivr₂ bias₂ budget₂ prov₂ hv₂ today₂ := by
  obtain ⟨ha, hb, hc, hd, he, hf, hg, hi⟩ := h
  rw [ha, hb, hc, hd, he, hf, hg, hi]

/-- An empty provider snapshot (no usable rows). -/
def emptyProv : ProviderData := ⟨⟨66, [], [], 45⟩, none, none⟩

/-- C9 witness: two identical concrete calls agree. -/
theorem claim_C9_witness :
    ((4.5 : ℝ) = 4.5 ∧ (17 : ℝ) = 17 ∧ (30 : ℝ) = 30 ∧ Bias.neutre = Bias.neutre ∧
      (1000 : ℝ) = 1000 ∧ emptyProv = emptyProv ∧
      (none : Option ℝ) = none ∧ (0 : ℤ) = 0) ∧
    build_strategy 4.5 17 30 .neutre 1000 emptyProv none 0 =
      build_strategy 4.5 17 30 .neutre 1000 emptyProv none 0 :=
  ⟨⟨rfl, rfl, rfl, rfl, rfl, rfl, rfl, rfl⟩,
    claim_C9_deterministic 4.5 17 30 .neutre 1000 emptyProv none 0
      4.5 17 30 .neutre 1000 emptyProv none 0
      ⟨rfl, rfl, rfl, rfl, rfl, rfl, rfl, rfl⟩⟩

/-! ## Claim C5: the penny-stock gate -/

/-- C5 (amended): with `spot < 10` the call always fails, and it fails with
the penny-stock rejection precisely when the liquidity gate (at least three
filtered rows on each side) passes first; an illiquid chain triggers the
liquidity rejection instead. -/
theorem claim_C5_penny_gate (spot vix ivr : ℝ) (bias : Bias) (budget : ℝ)
    (prov : ProviderData) (hv : Option ℝ) (today : ℤ) (hspot : spot < 10) :
    (∃ e, build_strategy spot vix ivr bias budget prov hv today = .error e) ∧
    (3 ≤ (filter_liquid_options prov.chain.calls).length →
     3 ≤ (filter_liquid_options prov.chain.puts).length →
     build_strategy spot vix ivr bias budget prov hv today = .error .pennyStock) := by
  simp only [build_strategy]
  by_cases hliq : (filter_liquid_options prov.chain.calls).length < 3 ∨
      (filter_liquid_options prov.chain.puts).length < 3
  · rw [if_pos hliq]
    exact ⟨⟨.illiquid, rfl⟩, fun hc hp => absurd hliq (by omega)⟩
  · rw [if_neg hliq, if_pos hspot]
    exact ⟨⟨.pennyStock, rfl⟩, fun _ _ => rfl⟩

/-- A penny-stock chain with three liquid rows on each side. -/
def pennyChainRow : Quote := ⟨5, 1, 1.1, 1, 50, some 0.5⟩

def pennyProv : ProviderData :=
  ⟨⟨66, [pennyChainRow, pennyChainRow, pennyChainRow],
       [pennyChainRow, pennyChainRow, pennyChainRow], 45⟩, none, none⟩

/-- C5 witness: at spot 4.50 with a liquid chain the penny-stock rejection
fires. -/
theorem claim_C5_witness :
    (4.5 : ℝ) < 10 ∧
    3 ≤ (filter_liquid_options pennyProv.chain.calls).length ∧
    3 ≤ (filter_liquid_options pennyProv.chain.puts).length ∧
    build_strategy 4.5 17 30 .neutre 1000 pennyProv none 0 = .error .pennyStock := by
  have hlen : (filter_liquid_options pennyProv.chain.calls).length = 3 ∧
      (filter_liquid_options pennyProv.chain.puts).length = 3 := by
    constructor <;>
      norm_num [pennyProv, pennyChainRow, filter_liquid_options, filterP, synthQuote,
        List.map]
  have h := claim_C5_penny_gate 4.5 17 30 .neutre 1000 pennyProv none 0 (by norm_num)
  exact ⟨by norm_num, by omega, by omega,
    h.2 (by omega) (by omega)⟩

/-! ## Claim C4: probability output bounds -/

/-- C4 (amended): the three clamped probabilities returned by
`compute_real_probabilities` lie in [0.1, 99.9]; the residual
`p_part_loss` lies in [0, 99.8] (its floor is 0, not 0.1). -/
theorem claim_C4_probability_bounds (legs : List Leg) (spot : ℝ) (dte : ℤ)
    (sigma : ℝ) (qty : ℤ) (tp mr : ℝ) (sm : Option ℝ) :
    (0.1 ≤ (compute_real_probabilities legs spot dte sigma qty tp mr sm).p_take_profit ∧
      (compute_real_probabilities legs spot dte sigma qty tp mr sm).p_take_profit ≤ 99.9) ∧
    (0.1 ≤ (compute_real_probabilities legs spot dte sigma qty tp mr sm).p_breakeven ∧
      (compute_real_probabilities legs spot dte sigma qty tp mr sm).p_breakeven ≤ 99.9) ∧
    (0.1 ≤ (compute_real_probabilities legs spot dte sigma qty tp mr sm).p_max_loss ∧
      (compute_real_probabilities legs spot dte sigma qty tp mr sm).p_max_loss ≤ 99.9) ∧
    (0 ≤ (compute_real_probabilities legs spot dte sigma qty tp mr sm).p_part_loss ∧
      (compute_real_probabilities legs spot dte sigma qty tp mr sm).p_part_loss ≤ 99.8) := by
  have hclamp : ∀ x : ℝ, 0.1 ≤ roundTo 1 (max 0.1 (min 99.9 x)) ∧
      roundTo 1 (max 0.1 (min 99.9 x)) ≤ 99.9 := by
    intro x
    apply roundTo_one_bounds (le_max_left _ _)
      (max_le (by norm_num) (min_le_left _ _)) 1 999 (by norm_num) (by norm_num)
  have hpart : ∀ pbe pml : ℝ, 0.1 ≤ pbe → 0.1 ≤ pml →
      0 ≤ roundTo 1 (max 0 (100 - pbe - pml)) ∧
        roundTo 1 (max 0 (100 - pbe - pml)) ≤ 99.8 := by
    intro pbe pml hbe hml
    have h0 : roundTo 1 (0 : ℝ) = 0 := by
      have h := roundTo_tenth_fix 0
      norm_num at h
      exact h
    have h998 : roundTo 1 (99.8 : ℝ) = 99.8 := by
      have h := roundTo_tenth_fix 998
      norm_num at h
      rw [show (99.8 : ℝ) = 499 / 5 by norm_num]
      exact h
    constructor
    · exact le_trans (le_of_eq h0.symm) (roundTo_mono 1 (le_max_left _ _))
    · exact le_trans (roundTo_mono 1 (max_le (by norm_num) (by linarith))) (le_of_eq h998)
  simp only [compute_real_probabilities]
  exact ⟨hclamp _, hclamp _, hclamp _, hpart _ _ (hclamp _).1 (hclamp _).1⟩


/-! ## Claim C1: take-profit implies breakeven-or-better -/

theorem sum_indicator_mono (X : ℕ → ℝ) {tp : ℝ} (htp : 0 ≤ tp) :
    (∑ i in Finset.range 500, if tp ≤ X i then gridW i else 0) ≤
      ∑ i in Finset.range 500, if 0 ≤ X i then gridW i else 0 := by
  apply Finset.sum_le_sum
  intro i _
  by_cases h : tp ≤ X i
  · rw [if_pos h, if_pos (le_trans htp h)]
  · rw [if_neg h]
    by_cases h2 : 0 ≤ X i
    · rw [if_pos h2]
      exact gridW_nonneg i
    · rw [if_neg h2]

/-- C1 (amended): for every nonnegative take-profit threshold — which is the
only way `build_strategy` ever calls the integrator — the take-profit event
implies the breakeven event pointwise, so after clamping and rounding
`p_take_profit ≤ p_breakeven`, for every leg list including non-monotone
iron-condor payoffs. -/
theorem claim_C1_pop_ordering (legs : List Leg) (spot : ℝ) (dte : ℤ)
    (sigma : ℝ) (qty : ℤ) (tp mr : ℝ) (sm : Option ℝ)
    (_hsigma : 0 < sigma) (htp : 0 ≤ tp) :
    (compute_real_probabilities legs spot dte sigma qty tp mr sm).p_take_profit ≤
      (compute_real_probabilities legs spot dte sigma qty tp mr sm).p_breakeven := by
  simp only [compute_real_probabilities]
  exact roundTo_mono 1 (max_le_max le_rfl (min_le_min le_rfl
    (mul_le_mul_of_nonneg_right
      (sum_indicator_mono (fun i => crpPnl legs spot dte sigma qty (sm.getD sigma) i) htp)
      (by norm_num))))

/-- C1 witness. -/
theorem claim_C1_witness :
    (0 : ℝ) < 0.25 ∧ (0 : ℝ) ≤ 0 ∧
    (compute_real_probabilities [] 100 45 0.25 1 0 100 none).p_take_profit ≤
      (compute_real_probabilities [] 100 45 0.25 1 0 100 none).p_breakeven :=
  ⟨by norm_num, le_rfl,
    claim_C1_pop_ordering [] 100 45 0.25 1 0 100 none (by norm_num) le_rfl⟩

/-! ## Numeric bounds on the density and the grid mass -/

theorem exp_neg_two_ge : (0.135335 : ℝ) ≤ Real.exp (-2) := by
  have h := Real.exp_one_lt_d9
  have hp : (0:ℝ) < Real.exp 1 := Real.exp_pos 1
  have h2 : Real.exp (2:ℝ) = Real.exp 1 * Real.exp 1 := by
    rw [← Real.exp_add]; norm_num
  have h3 : Real.exp (2:ℝ) < 7.3890561 := by nlinarith
  have h4 : Real.exp (-2:ℝ) = 1 / Real.exp 2 := by
    rw [Real.exp_neg, inv_eq_one_div]
  rw [h4, le_div_iff₀ (Real.exp_pos 2)]
  nlinarith [Real.exp_pos (2:ℝ)]

theorem exp_neg_half_ge : (0.6065 : ℝ) ≤ Real.exp (-(1/2) : ℝ) := by
  have hsq : Real.exp (-(1/2):ℝ) * Real.exp (-(1/2):ℝ) = Real.exp (-1:ℝ) := by
    rw [← Real.exp_add]; norm_num
  have h1 : (0.3678425 : ℝ) ≤ Real.exp (-1:ℝ) := by
    have h := Real.exp_one_lt_d9
    have h4 : Real.exp (-1:ℝ) = 1 / Real.exp 1 := by rw [Real.exp_neg, inv_eq_one_div]
    rw [h4, le_div_iff₀ (Real.exp_pos 1)]
    nlinarith
  nlinarith [Real.exp_pos (-(1/2):ℝ)]

/-- Density lower bound on the band `z² ≤ 4`. -/
theorem normPdf_ge_band2 {z : ℝ} (hz : z ^ 2 ≤ 4) : 0.0539 ≤ normPdf z := by
  unfold normPdf
  have h1 : Real.exp (-2:ℝ) ≤ Real.exp (-z ^ 2 / 2) := Real.exp_le_exp.mpr (by linarith)
  have h2 := exp_neg_two_ge
  have h3 := sqrt_two_pi_lt
  have h4 := sqrt_two_pi_pos
  rw [le_div_iff₀ h4]
  nlinarith

/-- Density lower bound on the band `z² ≤ 1`. -/
theorem normPdf_ge_band1 {z : ℝ} (hz : z ^ 2 ≤ 1) : 0.2419 ≤ normPdf z := by
  unfold normPdf
  have h1 : Real.exp (-(1/2):ℝ) ≤ Real.exp (-z ^ 2 / 2) := Real.exp_le_exp.mpr (by linarith)
  have h2 := exp_neg_half_ge
  have h3 := sqrt_two_pi_lt
  have h4 := sqrt_two_pi_pos
  rw [le_div_iff₀ h4]
  nlinarith

theorem gridZ_sq_le_four {i : ℕ} (h1 : 125 ≤ i) (h2 : i ≤ 374) : gridZ i ^ 2 ≤ 4 := by
  unfold gridZ
  have hi1 : (125 : ℝ) ≤ (i : ℝ) := by exact_mod_cast h1
  have hi2 : (i : ℝ) ≤ 374 := by exact_mod_cast h2
  have ha : (-2:ℝ) ≤ -4 + (i:ℝ) * (8/499) := by linarith
  have hb : (-4:ℝ) + (i:ℝ) * (8/499) ≤ 2 := by linarith
  nlinarith

theorem gridZ_sq_le_one {i : ℕ} (h1 : 188 ≤ i) (h2 : i ≤ 311) : gridZ i ^ 2 ≤ 1 := by
  unfold gridZ
  have hi1 : (188 : ℝ) ≤ (i : ℝ) := by exact_mod_cast h1
  have hi2 : (i : ℝ) ≤ 311 := by exact_mod_cast h2
  have ha : (-1:ℝ) ≤ -4 + (i:ℝ) * (8/499) := by linarith
  have hb : (-4:ℝ) + (i:ℝ) * (8/499) ≤ 1 := by linarith
  nlinarith

theorem gridZ_bounds {i : ℕ} (h : i ≤ 499) : -4 ≤ gridZ i ∧ gridZ i ≤ 4 := by
  unfold gridZ
  have hi0 : (0 : ℝ) ≤ (i : ℝ) := by positivity
  have hi : (i : ℝ) ≤ 499 := by exact_mod_cast h
  constructor <;> nlinarith

/-- The total Riemann mass of the 500-point grid is at least 0.51. -/
theorem totalMass_ge : (0.51 : ℝ) ≤ ∑ i in Finset.range 500, gridW i := by
  have hdz : gridDz = 8 / 499 := rfl
  have hsub : Finset.Ico 125 375 ⊆ Finset.range 500 := by
    intro i hi
    simp only [Finset.mem_Ico] at hi
    exact Finset.mem_range.mpr (by omega)
  have h1 : ∑ i in Finset.Ico 125 375, gridW i ≤ ∑ i in Finset.range 500, gridW i :=
    Finset.sum_le_sum_of_subset_of_nonneg hsub fun i _ _ => gridW_nonneg i
  have hsplit1 : ∑ i in Finset.Ico 125 188, gridW i + ∑ i in Finset.Ico 188 375, gridW i
      = ∑ i in Finset.Ico 125 375, gridW i :=
    Finset.sum_Ico_consecutive _ (by omega) (by omega)
  have hsplit2 : ∑ i in Finset.Ico 188 312, gridW i + ∑ i in Finset.Ico 312 375, gridW i
      = ∑ i in Finset.Ico 188 375, gridW i :=
    Finset.sum_Ico_consecutive _ (by omega) (by omega)
  have hband2a : (63 : ℝ) * (0.0539 * gridDz) ≤ ∑ i in Finset.Ico 125 188, gridW i := by
    have hc := Finset.card_nsmul_le_sum (Finset.Ico 125 188) gridW (0.0539 * gridDz) ?_
    · rw [Nat.card_Ico] at hc
      have : ((63 : ℕ) : ℝ) * (0.0539 * gridDz) ≤ ∑ i in Finset.Ico 125 188, gridW i := by
        rw [← nsmul_eq_mul]
        exact_mod_cast hc
      exact_mod_cast this
    · intro i hi
      simp only [Finset.mem_Ico] at hi
      unfold gridW
      have hb := normPdf_ge_band2 (gridZ_sq_le_four (i := i) (by omega) (by omega))
      have hdzp : (0:ℝ) < gridDz := by rw [hdz]; norm_num
      nlinarith
  have hband1 : (124 : ℝ) * (0.2419 * gridDz) ≤ ∑ i in Finset.Ico 188 312, gridW i := by
    have hc := Finset.card_nsmul_le_sum (Finset.Ico 188 312) gridW (0.2419 * gridDz) ?_
    · rw [Nat.card_Ico] at hc
      have : ((124 : ℕ) : ℝ) * (0.2419 * gridDz) ≤ ∑ i in Finset.Ico 188 312, gridW i := by
        rw [← nsmul_eq_mul]
        exact_mod_cast hc
      exact_mod_cast this
    · intro i hi
      simp only [Finset.mem_Ico] at hi
      unfold gridW
      have hb := normPdf_ge_band1 (gridZ_sq_le_one (i := i) (by omega) (by omega))
      have hdzp : (0:ℝ) < gridDz := by rw [hdz]; norm_num
      nlinarith
  have hband2b : (63 : ℝ) * (0.0539 * gridDz) ≤ ∑ i in Finset.Ico 312 375, gridW i := by
    have hc := Finset.card_nsmul_le_sum (Finset.Ico 312 375) gridW (0.0539 * gridDz) ?_
    · rw [Nat.card_Ico] at hc
      have : ((63 : ℕ) : ℝ) * (0.0539 * gridDz) ≤ ∑ i in Finset.Ico 312 375, gridW i := by
        rw [← nsmul_eq_mul]
        exact_mod_cast hc
      exact_mod_cast this
    · intro i hi
      simp only [Finset.mem_Ico] at hi
      unfold gridW
      have hb := normPdf_ge_band2 (gridZ_sq_le_four (i := i) (by omega) (by omega))
      have hdzp : (0:ℝ) < gridDz := by rw [hdz]; norm_num
      nlinarith
  have hnum : (0.51 : ℝ) ≤ 63 * (0.0539 * gridDz) + (124 * (0.2419 * gridDz)
      + 63 * (0.0539 * gridDz)) := by
    rw [hdz]
    norm_num
  linarith

/-! ## Crude bounds on Black-Scholes prices -/

theorem exp_neg_rT_le_one {r T : ℝ} (hr : 0 ≤ r) (hT : 0 ≤ T) :
    Real.exp (-r * T) ≤ 1 := by
  rw [Real.exp_le_one_iff]
  nlinarith

/-- The call price never exceeds the spot. -/
theorem bs_call_le_spot {S K T r sigma : ℝ} (hS : 0 ≤ S) (hK : 0 ≤ K)
    (hr : 0 ≤ r) (hT : 0 ≤ T) :
    black_scholes_price S K T r sigma .call ≤ S := by
  unfold black_scholes_price
  by_cases h : T ≤ 0 ∨ sigma ≤ 0
  · rw [if_pos h]
    show max 0 (S - K) ≤ S
    exact max_le hS (by linarith)
  · rw [if_neg h]
    show S * normCdf (bs_d1 S K T r sigma)
        - K * Real.exp (-r * T) * normCdf (bs_d1 S K T r sigma - sigma * Real.sqrt T) ≤ S
    have h1 := normCdf_le_one (bs_d1 S K T r sigma)
    have h2 := normCdf_nonneg (bs_d1 S K T r sigma - sigma * Real.sqrt T)
    have h3 : (0:ℝ) < Real.exp (-r * T) := Real.exp_pos _
    have hA : S * normCdf (bs_d1 S K T r sigma) ≤ S := mul_le_of_le_one_right hS h1
    have hB : 0 ≤ K * Real.exp (-r * T) * normCdf (bs_d1 S K T r sigma - sigma * Real.sqrt T) :=
      mul_nonneg (mul_nonneg hK h3.le) h2
    linarith

/-- The call price is never below minus the strike. -/
theorem bs_call_ge_neg_strike {S K T r sigma : ℝ} (hS : 0 ≤ S) (hK : 0 ≤ K)
    (hr : 0 ≤ r) (hT : 0 ≤ T) :
    -K ≤ black_scholes_price S K T r sigma .call := by
  unfold black_scholes_price
  by_cases h : T ≤ 0 ∨ sigma ≤ 0
  · rw [if_pos h]
    show -K ≤ max 0 (S - K)
    have := le_max_left (0:ℝ) (S - K)
    linarith
  · rw [if_neg h]
    show -K ≤ S * normCdf (bs_d1 S K T r sigma)
        - K * Real.exp (-r * T) * normCdf (bs_d1 S K T r sigma - sigma * Real.sqrt T)
    have h1 := normCdf_nonneg (bs_d1 S K T r sigma)
    have h2 := normCdf_le_one (bs_d1 S K T r sigma - sigma * Real.sqrt T)
    have h2b := normCdf_nonneg (bs_d1 S K T r sigma - sigma * Real.sqrt T)
    have h3 := exp_neg_rT_le_one hr hT
    have h4 : (0:ℝ) < Real.exp (-r * T) := Real.exp_pos _
    have h5 : Real.exp (-r * T) * normCdf (bs_d1 S K T r sigma - sigma * Real.sqrt T) ≤ 1 :=
      mul_le_one₀ h3 h2b h2
    have hA : 0 ≤ S * normCdf (bs_d1 S K T r sigma) := mul_nonneg hS h1
    have hB : K * (Real.exp (-r * T) * normCdf (bs_d1 S K T r sigma - sigma * Real.sqrt T)) ≤ K :=
      mul_le_of_le_one_right hK h5
    nlinarith

/-- The put price never exceeds the strike. -/
theorem bs_put_le_strike {S K T r sigma : ℝ} (hS : 0 ≤ S) (hK : 0 ≤ K)
    (hr : 0 ≤ r) (hT : 0 ≤ T) :
    black_scholes_price S K T r sigma .put ≤ K := by
  unfold black_scholes_price
  by_cases h : T ≤ 0 ∨ sigma ≤ 0
  · rw [if_pos h]
    show max 0 (K - S) ≤ K
    exact max_le hK (by linarith)
  · rw [if_neg h]
    show K * Real.exp (-r * T) * normCdf (-(bs_d1 S K T r sigma - sigma * Real.sqrt T))
        - S * normCdf (-bs_d1 S K T r sigma) ≤ K
    have h2 := normCdf_le_one (-(bs_d1 S K T r sigma - sigma * Real.sqrt T))
    have h2b := normCdf_nonneg (-(bs_d1 S K T r sigma - sigma * Real.sqrt T))
    have h1 := normCdf_nonneg (-bs_d1 S K T r sigma)
    have h3 := exp_neg_rT_le_one hr hT
    have h4 : (0:ℝ) < Real.exp (-r * T) := Real.exp_pos _
    have h5 : Real.exp (-r * T) * normCdf (-(bs_d1 S K T r sigma - sigma * Real.sqrt T)) ≤ 1 :=
      mul_le_one₀ h3 h2b h2
    have hA : 0 ≤ S * normCdf (-bs_d1 S K T r sigma) := mul_nonneg hS h1
    have hB : K * (Real.exp (-r * T) * normCdf (-(bs_d1 S K T r sigma - sigma * Real.sqrt T)))
        ≤ K := mul_le_of_le_one_right hK h5
    nlinarith

/-- The bound `exp x ≤ 1/(1-x)` for `0 ≤ x < 1`. -/
theorem exp_le_inv_one_sub {x : ℝ} (h1 : 0 ≤ x) (h2 : x < 1) :
    Real.exp x ≤ 1 / (1 - x) := by
  have hb : 1 - x ≤ Real.exp (-x) := by
    have := Real.add_one_le_exp (-x)
    linarith
  have hpos : (0:ℝ) < 1 - x := by linarith
  have hep : (0:ℝ) < Real.exp (-x) := Real.exp_pos _
  rw [le_div_iff₀ hpos]
  have hmul : Real.exp x * (1 - x) ≤ Real.exp x * Real.exp (-x) := by
    exact mul_le_mul_of_nonneg_left hb (Real.exp_pos x).le
  rw [← Real.exp_add] at hmul
  simpa using hmul


/-! ## Claim C1 counterexample -/

theorem c1_spot_pos (a : ℝ) : 0 < 100 * Real.exp a := by positivity

theorem c1_spot_bound {a : ℝ} (ha : a ≤ 0.21) : 100 * Real.exp a ≤ 127 := by
  have h := Real.exp_le_exp.mpr ha
  have h2 := exp_le_inv_one_sub (x := 0.21) (by norm_num) (by norm_num)
  nlinarith [Real.exp_pos a]

theorem inv_sqrt365_le : (Real.sqrt 365)⁻¹ ≤ 0.0524 := by
  have h1 : (19.1 : ℝ) ≤ Real.sqrt 365 := (Real.le_sqrt (by norm_num) (by norm_num)).mpr (by norm_num)
  have h2 : (0:ℝ) < Real.sqrt 365 := lt_of_lt_of_le (by norm_num) h1
  rw [inv_eq_one_div, div_le_iff₀ h2]
  nlinarith

/-- Crude P&L bounds for the C1 counterexample position (one long call,
strike 100, entry price 1,000,000) at any evaluation spot in (0, 127]. -/
theorem c1_sim_bounds {S : ℝ} (hS0 : 0 < S) (hS1 : S ≤ 127) :
    simulate_pnl [⟨.buy, .call, 100, 66, 22, 1000000⟩] S 21 1 1 < 0 ∧
      (-1000000000 : ℝ) ≤ simulate_pnl [⟨.buy, .call, 100, 66, 22, 1000000⟩] S 21 1 1 := by
  simp only [simulate_pnl, List.foldl, legSign]
  rw [show ((21:ℤ) ⊔ 1) = (21:ℤ) by norm_num]
  push_cast
  have hT : (0:ℝ) ≤ (21:ℝ) / 365 := by norm_num
  have hr : (0:ℝ) ≤ RISK_FREE_RATE := by unfold RISK_FREE_RATE; norm_num
  have hCle := @bs_call_le_spot S 100 ((21:ℝ) / 365)
    RISK_FREE_RATE 1 hS0.le (by norm_num) hr hT
  have hCge := @bs_call_ge_neg_strike S 100 ((21:ℝ) / 365)
    RISK_FREE_RATE 1 hS0.le (by norm_num) hr hT
  constructor
  · refine lt_of_le_of_lt (roundTo_le 2 _) ?_
    nlinarith
  · refine le_trans ?_ (roundTo_ge 2 _)
    nlinarith

/-- Per-gridpoint P&L bounds for the C1 counterexample call. -/
theorem c1_pnl_bounds (i : ℕ) (hi : i < 500) :
    crpPnl [⟨.buy, .call, 100, 66, 22, 1000000⟩] 100 22 1 1 1 i < 0 ∧
      (-1000000000 : ℝ) ≤ crpPnl [⟨.buy, .call, 100, 66, 22, 1000000⟩] 100 22 1 1 1 i := by
  have hz := gridZ_bounds (i := i) (by omega)
  simp only [crpPnl]
  norm_num
  apply c1_sim_bounds (by positivity)
  apply c1_spot_bound
  have hinv := inv_sqrt365_le
  have hinvnn : (0:ℝ) ≤ (Real.sqrt 365)⁻¹ := inv_nonneg.mpr (Real.sqrt_nonneg 365)
  unfold RISK_FREE_RATE
  nlinarith [hz.1, hz.2, mul_nonneg hinvnn (sub_nonneg.mpr hz.2)]


/-- C1 counterexample: the claim as stated quantifies over every take-profit
threshold; with the negative threshold −10^9 the inequality reverses at this
input (σ = 1 > 0): p_breakeven clamps to 0.1 while p_take_profit is at
least 50. -/
theorem claim_C1_cex :
    (0:ℝ) < 1 ∧
    (compute_real_probabilities [⟨.buy, .call, 100, 66, 22, 1000000⟩] 100 22 1 1
        (-1000000000) 0 none).p_breakeven <
      (compute_real_probabilities [⟨.buy, .call, 100, 66, 22, 1000000⟩] 100 22 1 1
        (-1000000000) 0 none).p_take_profit := by
  refine ⟨by norm_num, ?_⟩
  simp only [compute_real_probabilities, Option.getD_none]
  have hbe : (∑ i in Finset.range 500,
      if 0 ≤ crpPnl [⟨.buy, .call, 100, 66, 22, 1000000⟩] 100 22 1 1 1 i
      then gridW i else 0) = 0 := by
    apply Finset.sum_eq_zero
    intro i hi
    rw [if_neg (not_le.mpr (c1_pnl_bounds i (Finset.mem_range.mp hi)).1)]
  have htp : (∑ i in Finset.range 500,
      if (-1000000000 : ℝ) ≤ crpPnl [⟨.buy, .call, 100, 66, 22, 1000000⟩] 100 22 1 1 1 i
      then gridW i else 0) = ∑ i in Finset.range 500, gridW i := by
    apply Finset.sum_congr rfl
    intro i hi
    rw [if_pos (c1_pnl_bounds i (Finset.mem_range.mp hi)).2]
  rw [hbe, htp]
  have h01 : roundTo 1 (max 0.1 (min 99.9 ((0:ℝ) * 100))) = 0.1 := by
    rw [show max (0.1:ℝ) (min 99.9 ((0:ℝ) * 100)) = 0.1 by norm_num]
    have h := roundTo_tenth_fix 1
    norm_num at h
    rw [show (0.1:ℝ) = 1/10 by norm_num]
    exact h
  rw [h01]
  have hM := totalMass_ge
  have harg : (51:ℝ) ≤ max 0.1 (min 99.9 ((∑ i in Finset.range 500, gridW i) * 100)) := by
    have h1 : (51:ℝ) ≤ min 99.9 ((∑ i in Finset.range 500, gridW i) * 100) :=
      le_min (by norm_num) (by nlinarith)
    exact le_trans h1 (le_max_right _ _)
  have hround := roundTo_ge 1 (max 0.1 (min 99.9 ((∑ i in Finset.range 500, gridW i) * 100)))
  nlinarith

/-! ## Claim C4 counterexample -/

/-- At the empty-legs input every grid P&L is exactly 0. -/
theorem c4_pnl_zero (i : ℕ) : crpPnl [] 100 45 0.25 1 0.25 i = 0 := by
  simp only [crpPnl, simulate_pnl, List.foldl]
  have h := roundTo_int_div 2 0
  norm_num at h
  convert h using 2
  norm_num

/-- C4 counterexample: with take_profit = 0 and max_risk = 0 on an empty leg
list the breakeven and max-loss buckets both saturate, so p_part_loss
(`p_partial_loss` in the source) is 0, below the claimed lower clamp 0.1. -/
theorem claim_C4_cex :
    (compute_real_probabilities [] 100 45 0.25 1 0 0 none).p_part_loss < 0.1 := by
  simp only [compute_real_probabilities, Option.getD_none]
  have hbe : (∑ i in Finset.range 500,
      if (0:ℝ) ≤ crpPnl [] 100 45 0.25 1 0.25 i then gridW i else 0)
      = ∑ i in Finset.range 500, gridW i := by
    apply Finset.sum_congr rfl
    intro i _
    rw [c4_pnl_zero i, if_pos le_rfl]
  have hml : (∑ i in Finset.range 500,
      if crpPnl [] 100 45 0.25 1 0.25 i ≤ -(0:ℝ) * 0.95 then gridW i else 0)
      = ∑ i in Finset.range 500, gridW i := by
    apply Finset.sum_congr rfl
    intro i _
    rw [c4_pnl_zero i, if_pos (by norm_num)]
  rw [hbe, hml]
  have hM := totalMass_ge
  have harg : (51:ℝ) ≤ max 0.1 (min 99.9 ((∑ i in Finset.range 500, gridW i) * 100)) := by
    have h1 : (51:ℝ) ≤ min 99.9 ((∑ i in Finset.range 500, gridW i) * 100) :=
      le_min (by norm_num) (by nlinarith)
    exact le_trans h1 (le_max_right _ _)
  have hround := roundTo_ge 1 (max 0.1 (min 99.9 ((∑ i in Finset.range 500, gridW i) * 100)))
  have hmax0 : max 0 (100
      - roundTo 1 (max 0.1 (min 99.9 ((∑ i in Finset.range 500, gridW i) * 100)))
      - roundTo 1 (max 0.1 (min 99.9 ((∑ i in Finset.range 500, gridW i) * 100)))) = 0 :=
    max_eq_left (by nlinarith)
  rw [hmax0]
  have h0 : roundTo 1 (0:ℝ) = 0 := by
    have h := roundTo_tenth_fix 0
    norm_num at h
    exact h
  rw [h0]
  norm_num


/-! ## Claim C10: budget bound after sizing -/

/-- C10 (amended): whenever the per-contract (pre-rounding) max risk
respected the builder budget gate (`mrRaw ≤ budget`; the stored field is its
cent-rounded value), a successful sizing stage returns a scaled max risk of
at most `budget` plus half a cent of rounding slack. -/
theorem claim_C10_budget {budget mrRaw : ℝ} {s out : StratResult}
    (hmr : s.max_risk = roundTo 2 mrRaw) (hgate : mrRaw ≤ budget)
    (hok : sizeAndKill budget s = .ok out) :
    out.max_risk ≤ budget + 1 / 200 := by
  have hout : out = applySizing budget s := by
    simp only [sizeAndKill] at hok
    by_cases h : (applySizing budget s).ev < -0.20 * (applySizing budget s).max_risk
    · rw [if_pos h] at hok
      exact absurd hok (by simp)
    · rw [if_neg h] at hok
      exact ((Except.ok.injEq _ _).mp hok).symm
  subst hout
  simp only [applySizing]
  by_cases hgt : 1 < (if 0 < s.max_risk then max 1 (Int.floor (budget / s.max_risk)) else 1)
  · rw [if_pos hgt]
    have hpos : 0 < s.max_risk := by
      by_contra hneg
      rw [if_neg hneg] at hgt
      omega
    rw [if_pos hpos] at hgt ⊢
    have hq2 : max 1 (Int.floor (budget / s.max_risk)) = Int.floor (budget / s.max_risk) := by
      omega
    rw [hq2] at hgt ⊢
    have hfle : ((Int.floor (budget / s.max_risk) : ℤ) : ℝ) ≤ budget / s.max_risk :=
      Int.floor_le _
    have hcents : isCents s.max_risk := hmr ▸ isCents_roundTo mrRaw
    show roundTo 2 (s.max_risk * ((Int.floor (budget / s.max_risk) : ℤ) : ℝ))
        ≤ budget + 1 / 200
    rw [roundTo_cents_mul hcents]
    have hle : s.max_risk * ((Int.floor (budget / s.max_risk) : ℤ) : ℝ) ≤ budget := by
      have h1 : s.max_risk * ((Int.floor (budget / s.max_risk) : ℤ) : ℝ)
          ≤ s.max_risk * (budget / s.max_risk) :=
        mul_le_mul_of_nonneg_left hfle hpos.le
      rw [mul_div_cancel₀ budget hpos.ne.symm] at h1
      exact h1
    linarith
  · rw [if_neg hgt]
    show s.max_risk ≤ budget + 1 / 200
    rw [hmr]
    have h := roundTo_le 2 mrRaw
    norm_num at h
    linarith

/-- C10 witness. -/
theorem claim_C10_witness :
    sizingExample.max_risk = roundTo 2 300 ∧ (300:ℝ) ≤ 650 ∧
    sizeAndKill 650 sizingExample = .ok (applySizing 650 sizingExample) ∧
    (applySizing 650 sizingExample).max_risk ≤ 650 + 1 / 200 := by
  have hmr : sizingExample.max_risk = roundTo 2 300 := by
    rw [show (300:ℝ) = ((30000:ℤ):ℝ)/10^2 by norm_num, roundTo_int_div]
    norm_num [sizingExample, evKillExample]
  have hok : sizeAndKill 650 sizingExample = .ok (applySizing 650 sizingExample) := by
    norm_num [sizeAndKill, applySizing, sizingExample, evKillExample, roundTo]
  exact ⟨hmr, by norm_num, hok, claim_C10_budget hmr (by norm_num) hok⟩

/-! ## The claim C8 chain: a cash-secured put with premium above strike -/

/-- A deep-ITM put quote whose mid premium (40) exceeds its strike (20) —
arbitrage-violating data that nevertheless passes every liquidity filter. -/
def c8Put : Quote := ⟨20, 39, 41, 40, 100, some 0.25⟩

def c8Call : Quote := ⟨15, 1, 1.2, 1.1, 50, some 0.25⟩

def c8Prov : ProviderData :=
  ⟨⟨66, [c8Call, c8Call, c8Call], [c8Put, c8Put, c8Put], 45⟩, none, none⟩

/-- The draft built by the cash-secured-put branch on the C8 chain. -/
def c8Draft : Draft :=
  ⟨.cashSecuredPut, [⟨.sell, .put, 20, 66, 45, 40⟩], 4000, -2000, 4000⟩

theorem c8_filter_puts :
    filter_liquid_options [c8Put, c8Put, c8Put] = [c8Put, c8Put, c8Put] := by
  norm_num [filter_liquid_options, filterP, synthQuote, c8Put, List.map]

theorem c8_filter_calls :
    filter_liquid_options [c8Call, c8Call, c8Call] = [c8Call, c8Call, c8Call] := by
  norm_num [filter_liquid_options, filterP, synthQuote, c8Call, List.map]

theorem c8_sigma :
    estimate_sigma [c8Call, c8Call, c8Call, c8Put, c8Put, c8Put] 15 = 0.25 := by
  norm_num [estimate_sigma, filterP, medianR, sortAsc, insertAsc, List.filterMap,
    c8Put, c8Call]

/-- The cash-secured-put branch on the C8 chain returns the pathological
draft, for any tenor and volatility (the three quotes are identical, so the
delta scan always picks the first row). -/
theorem c8_draft_eval (T sigma : ℝ) :
    buildCashSecuredPut 15 T sigma 1500 [c8Put, c8Put, c8Put] 66 45 = .ok c8Draft := by
  norm_num [buildCashSecuredPut, find_strike_by_delta, argminBy, List.foldl,
    get_mid_price, c8Put, c8Draft, roundTo]

theorem c8_reduce (t : ℤ) :
    build_strategy 15 17 30 .haussier 1500 c8Prov none t
      = sizeAndKill 1500 (assembleStrategy 15 0.25 66 45 none t c8Draft) := by
  simp only [build_strategy, c8Prov]
  norm_num [c8_filter_calls, c8_filter_puts, c8_sigma, c8_draft_eval,
    eq_false (by decide : ¬ (Bias.haussier = Bias.baissier))]

/-- Crude per-spot lower bound on the C8 short-put P&L: the short premium 40
always beats the repriced put, which its strike (20) bounds above. -/
theorem c8_sim_ge {S sigma : ℝ} (hS : 0 ≤ S) :
    (2000 : ℝ) - 1 / 200 ≤ simulate_pnl [⟨.sell, .put, 20, 66, 45, 40⟩] S 21 sigma 1 := by
  simp only [simulate_pnl, List.foldl, legSign]
  rw [show ((21:ℤ) ⊔ 1) = (21:ℤ) by norm_num]
  push_cast
  have hP := @bs_put_le_strike S 20 ((21:ℝ) / 365)
    RISK_FREE_RATE sigma hS (by norm_num)
    (by unfold RISK_FREE_RATE; norm_num) (by norm_num)
  refine le_trans ?_ (roundTo_ge 2 _)
  nlinarith

theorem c8_pnl_ge (i : ℕ) :
    (2000 : ℝ) - 1 / 200 ≤ crpPnl [⟨.sell, .put, 20, 66, 45, 40⟩] 15 45 0.25 1 0.25 i := by
  simp only [crpPnl]
  rw [show ((21:ℤ) ⊓ 45) = (21:ℤ) by norm_num]
  exact c8_sim_ge (by positivity)

/-- The expected pnl of the C8 position clears the (positive) kill-switch
threshold 400. -/
theorem c8_ev_ge :
    (400 : ℝ) ≤ (compute_real_probabilities [⟨.sell, .put, 20, 66, 45, 40⟩] 15 45 0.25 1
      (roundTo 2 (|(4000:ℝ)| * 0.5)) (-2000) (some 0.25)).expected_pnl := by
  simp only [compute_real_probabilities, Option.getD_some]
  have h1 : ∀ i ∈ Finset.range 500,
      (1999 : ℝ) * gridW i ≤
        crpPnl [⟨.sell, .put, 20, 66, 45, 40⟩] 15 45 0.25 1 0.25 i * gridW i := by
    intro i _
    exact mul_le_mul_of_nonneg_right (le_trans (by norm_num) (c8_pnl_ge i)) (gridW_nonneg i)
  have h2 : (1999 : ℝ) * ∑ i in Finset.range 500, gridW i ≤
      ∑ i in Finset.range 500,
        crpPnl [⟨.sell, .put, 20, 66, 45, 40⟩] 15 45 0.25 1 0.25 i * gridW i := by
    rw [Finset.mul_sum]
    exact Finset.sum_le_sum h1
  have hM := totalMass_ge
  refine le_trans ?_ (roundTo_ge 2 _)
  nlinarith

/-- Full evaluation of `build_strategy` on the C8 chain: the call succeeds
and returns max risk −2000 with time-stop dte `45 - t`. -/
theorem c8_final (t : ℤ) :
    Except.map (fun s : StratResult => (s.max_risk, s.exit_time_stop_dte))
      (build_strategy 15 17 30 .haussier 1500 c8Prov none t)
      = .ok (-2000, 45 - t) := by
  rw [c8_reduce]
  simp only [sizeAndKill, applySizing, assembleStrategy, c8Draft, Option.getD_none]
  rw [if_neg (by norm_num : ¬ ((0:ℝ) < -2000))]
  rw [if_neg (by norm_num : ¬ ((1:ℤ) < 1))]
  rw [if_neg (not_lt.mpr (le_trans (by norm_num) c8_ev_ge))]
  simp [Except.map, Prod.ext_iff]


/-- C8: the code-bug evidence. On the C8 chain the call succeeds and the
returned strategy has `max_risk = -2000 ≤ 0`: the cash-secured-put branch
lacks the price-sanity rejection that every other branch applies. -/
theorem claim_C8_max_risk_bug :
    Except.map (fun s : StratResult => (s.max_risk, s.exit_time_stop_dte))
      (build_strategy 15 17 30 .haussier 1500 c8Prov none 0) = .ok (-2000, 45) ∧
    (-2000 : ℝ) ≤ 0 := by
  refine ⟨?_, by norm_num⟩
  have h := c8_final 0
  simpa using h

/-- C9 counterexample: two calls with identical claimed inputs (spot, vix,
iv rank, bias, budget and chain snapshot) but made on different days differ:
the exit plan's time-stop dte reads the current date, a hidden input not in
the claimed tuple. -/
theorem claim_C9_cex :
    build_strategy 15 17 30 .haussier 1500 c8Prov none 0 ≠
      build_strategy 15 17 30 .haussier 1500 c8Prov none 1 := by
  intro h
  have h0 := c8_final 0
  rw [h, c8_final 1] at h0
  norm_num [Prod.ext_iff] at h0

/-! ## Claim C10 counterexample: machinery -/

theorem bs_formula_cond {T sigma : ℝ} (hT : 0 < T) (hs : 0 < sigma) :
    ¬ (T ≤ 0 ∨ sigma ≤ 0) := by
  push_neg
  exact ⟨hT, hs⟩

theorem bs_put_delta_formula {S K T r sigma : ℝ} (hT : 0 < T) (hs : 0 < sigma) :
    black_scholes_delta S K T r sigma .put = normCdf (bs_d1 S K T r sigma) - 1 := by
  unfold black_scholes_delta
  rw [if_neg (bs_formula_cond hT hs)]

theorem exp_neg_le_inv_one_add {x : ℝ} (hx : 0 ≤ x) : Real.exp (-x) ≤ 1 / (1 + x) := by
  have h := Real.add_one_le_exp x
  have hp : (0:ℝ) < 1 + x := by linarith
  rw [Real.exp_neg, inv_eq_one_div]
  exact one_div_le_one_div_of_le hp (by linarith)

/-- Upper bound on the Black-Scholes put through the cdf-increment estimate:
`put ≤ max 0 (K e^{-rT} - S) + 0.4 K σ √T`. -/
theorem bs_put_upper {S K T r sigma : ℝ} (hS : 0 < S) (hK : 0 < K) (hr : 0 ≤ r)
    (hT : 0 < T) (hs : 0 < sigma) :
    black_scholes_price S K T r sigma .put
      ≤ max 0 (K * Real.exp (-r * T) - S) + K * (sigma * Real.sqrt T) * 0.4 := by
  unfold black_scholes_price
  rw [if_neg (bs_formula_cond hT hs)]
  show K * Real.exp (-r * T) * normCdf (-(bs_d1 S K T r sigma - sigma * Real.sqrt T))
      - S * normCdf (-(bs_d1 S K T r sigma)) ≤ _
  have hst : 0 < sigma * Real.sqrt T := by positivity
  have hab : -(bs_d1 S K T r sigma) ≤ -(bs_d1 S K T r sigma - sigma * Real.sqrt T) := by
    linarith
  have hdiff := normCdf_add_Ioc hab
  have hint_le := integral_Ioc_normPdf_le hab 0.4 fun t _ => normPdf_le_const t
  have hint_ge := integral_Ioc_normPdf_ge hab 0 fun t _ => (normPdf_nonneg t)
  have hba : -(bs_d1 S K T r sigma - sigma * Real.sqrt T) - -(bs_d1 S K T r sigma)
      = sigma * Real.sqrt T := by ring
  rw [hba] at hint_le hint_ge
  have hΦa0 := normCdf_nonneg (-(bs_d1 S K T r sigma))
  have hΦa1 := normCdf_le_one (-(bs_d1 S K T r sigma))
  have he1 := exp_neg_rT_le_one hr hT.le
  have he0 : (0:ℝ) < Real.exp (-r * T) := Real.exp_pos _
  set I := ∫ t in Ioc (-(bs_d1 S K T r sigma))
    (-(bs_d1 S K T r sigma - sigma * Real.sqrt T)), normPdf t with hI
  rw [hdiff]
  rcases le_or_lt (K * Real.exp (-r * T) - S) 0 with hc | hc
  · have h6 : normCdf (-(bs_d1 S K T r sigma)) * (K * Real.exp (-r * T) - S) ≤ 0 :=
      mul_nonpos_of_nonneg_of_nonpos hΦa0 hc
    have h7 : K * Real.exp (-r * T) * I ≤ K * (sigma * Real.sqrt T) * 0.4 := by
      have hKe : K * Real.exp (-r * T) ≤ K := mul_le_of_le_one_right hK.le he1
      have h8 : K * Real.exp (-r * T) * I ≤ K * I :=
        mul_le_mul_of_nonneg_right hKe (by nlinarith)
      nlinarith
    have h9 : (0:ℝ) ≤ max 0 (K * Real.exp (-r * T) - S) := le_max_left _ _
    nlinarith
  · have h6 : normCdf (-(bs_d1 S K T r sigma)) * (K * Real.exp (-r * T) - S)
        ≤ K * Real.exp (-r * T) - S := mul_le_of_le_one_left hc.le hΦa1
    have h7 : K * Real.exp (-r * T) * I ≤ K * (sigma * Real.sqrt T) * 0.4 := by
      have hKe : K * Real.exp (-r * T) ≤ K := mul_le_of_le_one_right hK.le he1
      have h8 : K * Real.exp (-r * T) * I ≤ K * I :=
        mul_le_mul_of_nonneg_right hKe (by nlinarith)
      nlinarith
    have h9 : K * Real.exp (-r * T) - S ≤ max 0 (K * Real.exp (-r * T) - S) := le_max_right _ _
    nlinarith


/-- Key distance of a put row whose `d1` is positive: strictly below 0.25. -/
theorem c10_key_small {S K T r sigma : ℝ} (hT : 0 < T) (hs : 0 < sigma)
    (hd : 0 < bs_d1 S K T r sigma) :
    abs (abs (black_scholes_delta S K T r sigma .put) - abs (-0.25 : ℝ)) < 0.25 := by
  rw [bs_put_delta_formula hT hs]
  have h1 := normCdf_gt_half hd
  have h2 := normCdf_lt_one hd.le
  rw [abs_of_nonpos (show normCdf (bs_d1 S K T r sigma) - 1 ≤ 0 by linarith)]
  rw [show |(-0.25:ℝ)| = 0.25 by norm_num]
  rw [abs_lt]
  constructor <;> linarith

/-- Key distance of a put row whose `d1` is negative: strictly above 0.25. -/
theorem c10_key_big {S K T r sigma : ℝ} (hT : 0 < T) (hs : 0 < sigma)
    (hd : bs_d1 S K T r sigma < 0) :
    0.25 < abs (abs (black_scholes_delta S K T r sigma .put) - abs (-0.25 : ℝ)) := by
  rw [bs_put_delta_formula hT hs]
  have h1 := normCdf_lt_half hd
  have h0 := normCdf_nonneg (bs_d1 S K T r sigma)
  rw [abs_of_nonpos (show normCdf (bs_d1 S K T r sigma) - 1 ≤ 0 by linarith)]
  rw [show |(-0.25:ℝ)| = 0.25 by norm_num]
  rw [abs_of_nonneg (show (0:ℝ) ≤ -(normCdf (bs_d1 S K T r sigma) - 1) - 0.25 by linarith)]
  linarith

/-! The C10 chain: spot 10, budget 1000.006, mid-vol regime, wheel branch.
The first put's per-contract risk is 1000.006, equal to the budget, so the
budget gate passes, but the cent-rounded stored risk is 1000.01. -/

def c10PutA : Quote := ⟨10.06006, 0.05, 0.07, 0.06, 100, some 0.001⟩

def c10PutB : Quote := ⟨10.07, 0.05, 0.07, 0.06, 100, some 0.001⟩

def c10PutC : Quote := ⟨10.08, 0.05, 0.07, 0.06, 100, some 0.001⟩

def c10Call : Quote := ⟨10.5, 0.1, 0.12, 0.11, 50, some 0.001⟩

def c10Prov : ProviderData :=
  ⟨⟨66, [c10Call, c10Call, c10Call], [c10PutA, c10PutB, c10PutC], 45⟩, none, none⟩

def c10Draft : Draft :=
  ⟨.cashSecuredPut, [⟨.sell, .put, 10.06006, 66, 45, 0.06⟩], 6, 1000.01, 6⟩

theorem c10_T_pos : (0:ℝ) < ((45:ℤ) : ℝ) / 365 := by norm_num

theorem c10_d1A_pos :
    0 < bs_d1 10 10.06006 (((45:ℤ) : ℝ) / 365) RISK_FREE_RATE 0.001 := by
  unfold bs_d1 RISK_FREE_RATE
  apply div_pos ?_ (by positivity)
  have hlog : Real.log (10 / 10.06006) = - Real.log (10.06006 / 10) := by
    rw [show (10:ℝ) / 10.06006 = (10.06006 / 10)⁻¹ by norm_num, Real.log_inv]
  rw [hlog]
  have hup : Real.log (10.06006 / 10) ≤ 10.06006 / 10 - 1 :=
    Real.log_le_sub_one_of_pos (by norm_num)
  push_cast
  nlinarith

theorem c10_d1_neg {K : ℝ} (hK1 : 1.007 ≤ K / 10) (hK0 : 0 < K) :
    bs_d1 10 K (((45:ℤ) : ℝ) / 365) RISK_FREE_RATE 0.001 < 0 := by
  unfold bs_d1 RISK_FREE_RATE
  apply div_neg_of_neg_of_pos ?_ (by positivity)
  have hlog : Real.log (10 / K) = - Real.log (K / 10) := by
    rw [show (10:ℝ) / K = (K / 10)⁻¹ by rw [inv_div], Real.log_inv]
  rw [hlog]
  have hc : Real.exp ((5e-2 + (1e-3) ^ 2 / 2) * (((45:ℤ) : ℝ) / 365)) < 1.007 := by
    refine lt_of_le_of_lt (exp_le_inv_one_sub (by push_cast; norm_num) (by push_cast; norm_num)) ?_
    push_cast
    norm_num
  have hlt : (5e-2 + (1e-3) ^ 2 / 2) * (((45:ℤ) : ℝ) / 365) < Real.log (K / 10) := by
    have h2 : Real.exp ((5e-2 + (1e-3) ^ 2 / 2) * (((45:ℤ) : ℝ) / 365)) < K / 10 :=
      lt_of_lt_of_le hc hK1
    exact (Real.lt_log_iff_exp_lt (by linarith [hK1])).mpr h2
  linarith

/-- The delta scan on the C10 puts picks the first row: it is the only one
with positive `d1`, hence the only key below 0.25. -/
theorem c10_delta_pick :
    find_strike_by_delta [c10PutA, c10PutB, c10PutC] 10 (((45:ℤ) : ℝ) / 365) 0.001
      (-0.25) .put = some c10PutA := by
  simp only [find_strike_by_delta, argminBy, List.foldl, c10PutA, c10PutB, c10PutC]
  have hs : (0:ℝ) < 0.001 := by norm_num
  have hA := c10_key_small c10_T_pos hs c10_d1A_pos
  have hB := c10_key_big c10_T_pos hs (c10_d1_neg (K := 10.07) (by norm_num) (by norm_num))
  have hC := c10_key_big c10_T_pos hs (c10_d1_neg (K := 10.08) (by norm_num) (by norm_num))
  have hBA : ¬ (abs (abs (black_scholes_delta 10 10.07 (((45:ℤ):ℝ)/365)
        RISK_FREE_RATE 0.001 .put) - abs (-0.25:ℝ))
      < abs (abs (black_scholes_delta 10 10.06006 (((45:ℤ):ℝ)/365)
        RISK_FREE_RATE 0.001 .put) - abs (-0.25:ℝ))) := by
    push_neg
    linarith
  rw [if_neg hBA]
  dsimp only
  have hCA : ¬ (abs (abs (black_scholes_delta 10 10.08 (((45:ℤ):ℝ)/365)
        RISK_FREE_RATE 0.001 .put) - abs (-0.25:ℝ))
      < abs (abs (black_scholes_delta 10 10.06006 (((45:ℤ):ℝ)/365)
        RISK_FREE_RATE 0.001 .put) - abs (-0.25:ℝ))) := by
    push_neg
    linarith
  rw [if_neg hCA]


theorem c10_filter_puts :
    filter_liquid_options [c10PutA, c10PutB, c10PutC] = [c10PutA, c10PutB, c10PutC] := by
  norm_num [filter_liquid_options, filterP, synthQuote, c10PutA, c10PutB, c10PutC, List.map]

theorem c10_filter_calls :
    filter_liquid_options [c10Call, c10Call, c10Call] = [c10Call, c10Call, c10Call] := by
  norm_num [filter_liquid_options, filterP, synthQuote, c10Call, List.map]

theorem c10_sigma :
    estimate_sigma [c10Call, c10Call, c10Call, c10PutA, c10PutB, c10PutC] 10 = 0.001 := by
  norm_num [estimate_sigma, filterP, medianR, sortAsc, insertAsc, List.filterMap,
    c10Call, c10PutA, c10PutB, c10PutC] <;> simp

theorem c10_draft_eval :
    buildCashSecuredPut 10 (((45:ℤ) : ℝ) / 365) 0.001 1000.006
      [c10PutA, c10PutB, c10PutC] 66 45 = .ok c10Draft := by
  simp only [buildCashSecuredPut, c10_delta_pick]
  norm_num [get_mid_price, c10PutA, c10Draft, roundTo]

theorem c10_reduce (t : ℤ) :
    build_strategy 10 17 30 .neutre 1000.006 c10Prov (some 0.0001) t
      = sizeAndKill 1000.006 (assembleStrategy 10 0.001 66 45 (some 0.0001) t c10Draft) := by
  simp only [build_strategy, c10Prov, c10_filter_calls, c10_filter_puts]
  rw [if_neg (by norm_num [List.length] : ¬ (([c10Call, c10Call, c10Call]).length < 3
      ∨ ([c10PutA, c10PutB, c10PutC]).length < 3))]
  rw [if_neg (by norm_num : ¬ ((10:ℝ) < 10))]
  rw [if_neg (by norm_num : ¬ ((30:ℝ) > 50 ∨ (17:ℝ) > 20))]
  rw [if_neg (by norm_num : ¬ ((30:ℝ) < 20 ∧ (17:ℝ) < 15))]
  rw [if_pos (⟨by norm_num, by decide⟩ :
    (1000.006:ℝ) ≥ 10 * 100 ∧ Bias.neutre ≠ Bias.baissier)]
  rw [show ([c10Call, c10Call, c10Call] ++ [c10PutA, c10PutB, c10PutC])
      = [c10Call, c10Call, c10Call, c10PutA, c10PutB, c10PutC] from rfl]
  rw [c10_sigma, c10_draft_eval]

/-- The short 10.06006 put is worthless enough at any spot above 10.0318
that the position P&L is nonnegative. -/
theorem c10_sim_ge {S : ℝ} (hS : 10.0318 ≤ S) :
    0 ≤ simulate_pnl [⟨.sell, .put, 10.06006, 66, 45, 0.06⟩] S 21 0.001 1 := by
  simp only [simulate_pnl, List.foldl, legSign]
  rw [show ((21:ℤ) ⊔ 1) = (21:ℤ) by norm_num]
  push_cast
  have hU := @bs_put_upper S 10.06006 ((21:ℝ) / 365)
    RISK_FREE_RATE 0.001 (by linarith) (by norm_num)
    (by unfold RISK_FREE_RATE; norm_num) (by norm_num) (by norm_num)
  have hexp := exp_neg_le_inv_one_add (x := RISK_FREE_RATE * ((21:ℝ) / 365))
    (by unfold RISK_FREE_RATE; norm_num)
  rw [show -(RISK_FREE_RATE) * ((21:ℝ)/365) = -(RISK_FREE_RATE * ((21:ℝ)/365)) by ring] at hU
  have hep : (0:ℝ) < Real.exp (-(RISK_FREE_RATE * ((21:ℝ) / 365))) := Real.exp_pos _
  have hKe : (10.06006:ℝ) * Real.exp (-(RISK_FREE_RATE * ((21:ℝ) / 365))) ≤ 10.0313 := by
    have h2 : (10.06006:ℝ) * (1 / (1 + RISK_FREE_RATE * ((21:ℝ) / 365))) ≤ 10.0313 := by
      unfold RISK_FREE_RATE
      norm_num
    nlinarith
  have hmax0 : max 0 ((10.06006:ℝ) * Real.exp (-(RISK_FREE_RATE * ((21:ℝ) / 365))) - S) = 0 :=
    max_eq_left (by linarith)
  rw [hmax0] at hU
  have hsq : Real.sqrt ((21:ℝ) / 365) ≤ 0.24 := Real.sqrt_le_iff.mpr ⟨by norm_num, by norm_num⟩
  have hsqn : (0:ℝ) ≤ Real.sqrt ((21:ℝ) / 365) := Real.sqrt_nonneg _
  have hwidth : (10.06006:ℝ) * ((0.001:ℝ) * Real.sqrt ((21:ℝ) / 365)) * 0.4 ≤ 0.001 := by
    nlinarith
  refine le_trans ?_ (roundTo_ge 2 _)
  nlinarith

theorem c10_pnl_ge (i : ℕ) (hi : i < 500) :
    0 ≤ crpPnl [⟨.sell, .put, 10.06006, 66, 45, 0.06⟩] 10 45 0.001 1 0.0001 i := by
  have hz := gridZ_bounds (i := i) (by omega)
  simp only [crpPnl]
  rw [show ((1:ℤ) ⊔ (45 - 21)) = (24:ℤ) by norm_num,
      show ((21:ℤ) ⊓ 45) = (21:ℤ) by norm_num]
  push_cast
  apply c10_sim_ge
  have hsq : Real.sqrt ((24:ℝ) / 365) ≤ 0.257 := Real.sqrt_le_iff.mpr ⟨by norm_num, by norm_num⟩
  have hsqn : (0:ℝ) ≤ Real.sqrt ((24:ℝ) / 365) := Real.sqrt_nonneg _
  have hE : (0.00318:ℝ) ≤ (RISK_FREE_RATE - 0.0001 ^ 2 / 2) * ((24:ℝ) / 365)
      + 0.0001 * Real.sqrt ((24:ℝ) / 365) * gridZ i := by
    unfold RISK_FREE_RATE
    nlinarith [hz.1, hz.2, mul_nonneg hsqn (by linarith : (0:ℝ) ≤ gridZ i + 4)]
  have h1 := Real.add_one_le_exp ((RISK_FREE_RATE - 0.0001 ^ 2 / 2) * ((24:ℝ) / 365)
      + 0.0001 * Real.sqrt ((24:ℝ) / 365) * gridZ i)
  nlinarith

theorem c10_ev_ge :
    (-200.002 : ℝ) ≤ (compute_real_probabilities [⟨.sell, .put, 10.06006, 66, 45, 0.06⟩]
      10 45 0.001 1 (roundTo 2 (|(6:ℝ)| * 0.5)) 1000.01 (some 0.0001)).expected_pnl := by
  simp only [compute_real_probabilities, Option.getD_some]
  have h : (0:ℝ) ≤ ∑ i in Finset.range 500,
      crpPnl [⟨.sell, .put, 10.06006, 66, 45, 0.06⟩] 10 45 0.001 1 0.0001 i * gridW i := by
    apply Finset.sum_nonneg
    intro i hi
    exact mul_nonneg (c10_pnl_ge i (Finset.mem_range.mp hi)) (gridW_nonneg i)
  refine le_trans ?_ (roundTo_ge 2 _)
  nlinarith

theorem c10_final :
    Except.map (fun s : StratResult => s.max_risk)
      (build_strategy 10 17 30 .neutre 1000.006 c10Prov (some 0.0001) 0) = .ok 1000.01 := by
  rw [c10_reduce]
  simp only [sizeAndKill, applySizing, assembleStrategy, c10Draft, Option.getD_some]
  rw [if_pos (by norm_num : (0:ℝ) < 1000.01)]
  rw [show max (1:ℤ) (Int.floor ((1000.006:ℝ) / 1000.01)) = 1 by norm_num]
  rw [if_neg (by norm_num : ¬ ((1:ℤ) < 1))]
  rw [if_neg (not_lt.mpr (le_trans (by norm_num) c10_ev_ge))]
  simp [Except.map]

/-- C10 counterexample: on the C10 chain the per-contract risk 1000.006
exactly meets the budget 1000.006, yet the returned (qty-1-scaled) max_risk
is the cent-rounded 1000.01, exceeding the budget. -/
theorem claim_C10_cex :
    Except.map (fun s : StratResult => s.max_risk)
      (build_strategy 10 17 30 .neutre 1000.006 c10Prov (some 0.0001) 0) = .ok 1000.01 ∧
    (1000.006 : ℝ) < 1000.01 :=
  ⟨c10_final, by norm_num⟩


/-- C5 counterexample: with spot 4.50 but an empty chain the call raises the
liquidity rejection, not the penny-stock rejection — the liquidity gate runs
first, so the penny rejection is not unconditional. -/
theorem claim_C5_cex :
    build_strategy 4.5 17 30 .neutre 1000 emptyProv none 0 = .error .illiquid ∧
    BuildError.illiquid ≠ BuildError.pennyStock := by
  constructor
  · simp only [build_strategy, emptyProv]
    rw [if_pos]
    norm_num [filter_liquid_options, filterP, List.map]
  · decide

end
